import Mathlib

/-!
spork: annuity formulas, the secant rate solver and the solar event solver.

A shallow embedding of `finance/finance.go` and `sun/sun.go`.

The Go code computes on `float64`.  The embedding is written over an arbitrary
ordered field `K` (with a floor function for the float-to-integer conversions), so every
definition is an ordinary computable function; the functions of Go's `math` package are
passed as a record `GoMath K`.  Theorems are stated at `K = ℝ` with the real functions
(`realMath`), i.e. they describe the exact-arithmetic reading of the code: rounding,
infinities and NaN are not modelled.
-/

namespace Spork

/-- The functions and constants of Go's `math` package that the program calls. -/
structure GoMath (K : Type) where
  /-- Go: `math.Pow` -/
  Pow : K → K → K
  /-- Go: `math.Exp` -/
  Exp : K → K
  /-- Go: `math.Log` -/
  Log : K → K
  /-- Go: `math.Sin` -/
  Sin : K → K
  /-- Go: `math.Tan` -/
  Tan : K → K
  /-- Go: `math.Asin` -/
  Asin : K → K
  /-- Go: `math.Acos` -/
  Acos : K → K
  /-- Go: `math.Pi` -/
  Pi : K

/-- The real-number reading of the `math` package. -/
noncomputable def realMath : GoMath ℝ where
  Pow := fun x y => x ^ y
  Exp := Real.exp
  Log := Real.log
  Sin := Real.sin
  Tan := Real.tan
  Asin := Real.arcsin
  Acos := Real.arccos
  Pi := Real.pi

section Finance

variable {K : Type} [LinearOrderedField K]

/-- Go: `func Pmt(r, n, p, f float64, t bool)` (finance.go 22-34). -/
def Pmt (m : GoMath K) (r n p f : K) (t : Bool) : K :=
  if r = 0 then
    -1 * (f + p) / n
  else
    let r1 : K := r + 1
    let r2 : K := if !t then 1 else r1
    (f + p * m.Pow r1 n) * r / (r2 * (1 - m.Pow r1 n))

/-- Go: `func Nper(r, y, p, f float64, t bool)` (finance.go 51-72). -/
def Nper (m : GoMath K) (r y p f : K) (t : Bool) : K :=
  if r = 0 then
    -1 * (f + p) / y
  else
    let r1 : K := r + 1
    let r2 : K := if !t then 1 else r1
    let ryr : K := r2 * y / r
    let a1 : K := if ryr - f < 0 then m.Log (f - ryr) else m.Log (ryr - f)
    let a2 : K := if ryr - f < 0 then m.Log (-p - ryr) else m.Log (p + ryr)
    let a3 : K := m.Log r1
    (a1 - a2) / a3

/-- Go: `func Npv(r float64, cfs []float64)` (finance.go 74-83).  The accumulator is the pair
`(npv, trate)` of the loop. -/
def Npv (r : K) (cfs : List K) : K :=
  let r1 : K := r + 1
  (cfs.foldl (fun (acc : K × K) (c : K) => (acc.1 + c / acc.2, acc.2 * r1)) (0, r1)).1

/-- Go: `func Pv(r, n, y, f float64, t bool)` (finance.go 99-112).  It returns the present
value; the comment above it in the source (finance.go 85-98) is the one of `Fv` and speaks of
the future value. -/
def Pv (m : GoMath K) (r n y f : K) (t : Bool) : K :=
  if r = 0 then
    -1 * ((n * y) + f)
  else
    let r1 : K := r + 1
    let r2 : K := if !t then 1 else r1
    (((1 - m.Pow r1 n) / r) * r2 * y - f) / m.Pow r1 n

/-- Go: `func Fv(r, n, y, p float64, t bool)` (finance.go 129-142).  The zero-rate branch is
`-1 * (p + (n + y))`, as in the source. -/
def Fv (m : GoMath K) (r n y p : K) (t : Bool) : K :=
  if r = 0 then
    -1 * (p + (n + y))
  else
    let r1 : K := r + 1
    let r2 : K := if !t then 1 else r1
    ((1 - m.Pow r1 n) * r2 * y) / r - p * m.Pow r1 n

/-- Go: `FINANCIAL_MAX_ITERATIONS int64 = 128` (finance.go 157). -/
def FINANCIAL_MAX_ITERATIONS : Int := 128

/-- Go: `FINANCIAL_PRECISION float64 = 0.000000001` (finance.go 158). -/
def FINANCIAL_PRECISION : K := 0.000000001

/-- The local variables of `Rate` (finance.go 155, 164). -/
structure RateVars (K : Type) where
  rate : K
  y : K
  y0 : K
  y1 : K
  x0 : K
  x1 : K
  f : K
  i : K

/-- The state of `Rate` when the loop is first reached (finance.go 160-175): the guess is
clamped, `y` and `f` are set by the branch on `|rate|`, and `y1` is computed from whatever `f`
then holds (`f` is still 0 when the linear branch was taken). -/
def rateInit (m : GoMath K) (nper pmt pv fv tp guess : K) : RateVars K :=
  let guess : K := if guess ≤ 0 ∨ guess ≥ 1 then 0.1 else guess
  let rate : K := guess
  let f : K :=
    if |rate| < FINANCIAL_PRECISION then 0 else m.Exp (nper * m.Log (1 + rate))
  let y : K :=
    if |rate| < FINANCIAL_PRECISION then
      pv * (1 + nper * rate) + pmt * (1 + rate * tp) * nper + fv
    else
      pv * f + pmt * (1 / rate + tp) * (f - 1) + fv
  let y0 : K := pv + pmt * nper + fv
  let y1 : K := pv * f + pmt * (1 / rate + tp) * (f - 1) + fv
  let x1 : K := rate
  ⟨rate, y, y0, y1, 0, x1, f, 0⟩

/-- The loop test of `Rate` (finance.go 177): the loop goes on while
`(math.Abs(y0-y1) > FINANCIAL_PRECISION) && (1 < FINANCIAL_MAX_ITERATIONS)`. -/
def rateContinues (s : RateVars K) : Bool :=
  decide (|s.y0 - s.y1| > FINANCIAL_PRECISION) && decide ((1 : Int) < FINANCIAL_MAX_ITERATIONS)

/-- One pass through the loop body of `Rate` (finance.go 180-193). -/
def rateStep (m : GoMath K) (nper pmt pv fv tp : K) (s : RateVars K) : RateVars K :=
  let rate : K := (s.y1 * s.x0 - s.y0 * s.x1) / (s.y1 - s.y0)
  let x0 : K := s.x1
  let x1 : K := rate
  let f : K := if |rate| < FINANCIAL_PRECISION then s.f else m.Pow (1 + rate) nper
  let y : K :=
    if |rate| < FINANCIAL_PRECISION then
      pv * (1 + nper * rate) + pmt * (1 + rate * tp) * nper + fv
    else
      pv * f + pmt * (1 / rate + tp) * (f - 1) + fv
  let y0 : K := s.y1
  let y1 : K := y
  ⟨rate, y, y0, y1, x0, x1, f, s.i + 1⟩

/-- The `for` loop of `Rate` (finance.go 176-194), run for at most `fuel` tests of the loop
condition; `none` means the loop was still running when the fuel ran out. -/
def rateLoop (m : GoMath K) (nper pmt pv fv tp : K) : Nat → RateVars K → Option (RateVars K)
  | 0, _ => none
  | fuel + 1, s =>
    if rateContinues s then rateLoop m nper pmt pv fv tp fuel (rateStep m nper pmt pv fv tp s)
    else some s

/-- Go: `func Rate(nper, pmt, pv, fv, tp, guess float64)` (finance.go 155-197).  It returns
the periodic rate; the comment above it in the source (finance.go 144-154) is the one of `Pmt`
and speaks of the payment per period. -/
def Rate (m : GoMath K) (fuel : Nat) (nper pmt pv fv tp guess : K) : Option K :=
  (rateLoop m nper pmt pv fv tp fuel (rateInit m nper pmt pv fv tp guess)).map (fun s => s.rate)

end Finance

section Sun

variable {K : Type} [LinearOrderedField K] [FloorRing K]

/-- Go: `func toRadians(a float64)` (sun.go 91-93). -/
def toRadians (m : GoMath K) (a : K) : K :=
  m.Pi / 180 * a

/-- Go: `func toDegrees(r float64)` (sun.go 95-97). -/
def toDegrees (m : GoMath K) (r : K) : K :=
  r * 180 / m.Pi

/-- Go's conversion of a float to an integer type, `(int)(x)` and `int32(x)`: the fraction is
discarded (truncation towards zero).  Values outside the range of the target type are not
modelled. -/
def goTrunc (x : K) : Int :=
  if 0 ≤ x then ⌊x⌋ else ⌈x⌉

/-- The values computed by one pass through the loop body of `SunRise` or `SunSet`. -/
structure SunVars (K : Type) where
  t : K
  L : K
  G : K
  lamda : K
  epc : K
  sigam : K
  gha : K
  e : K
  utStart : K

/-- The loop body of `SunRise` (sun.go 23-34); `lat` is already in radians. -/
def sunRiseBody (m : GoMath K) (lat lng : K) (dayCount : Int) (h ut0 : K) : SunVars K :=
  let t : K := ((dayCount : K) + ut0 / 360) / 36525
  let L : K := 280.460 + 36000.777 * t
  let G : K := toRadians m (357.528 + 35999.050 * t)
  let lamda : K := toRadians m (L + 1.915 * m.Sin G + 0.020 * m.Sin (2 * G))
  let epc : K := toRadians m (23.4393 - 0.0130 * t)
  let sigam : K := m.Asin (m.Sin epc * m.Sin lamda)
  let gha : K := ut0 - 180 - 1.915 * m.Sin G - 0.020 * m.Sin (2 * G)
    + 2.466 * m.Sin (2 * lamda) - 0.053 * m.Sin (4 * lamda)
  let e : K := toDegrees m (m.Acos (h - m.Tan lat * m.Tan sigam))
  let utStart : K := ut0 - gha - lng - e
  ⟨t, L, G, lamda, epc, sigam, gha, e, utStart⟩

/-- The loop body of `SunSet` (sun.go 64-75); `lat` is already in radians. -/
def sunSetBody (m : GoMath K) (lat lng : K) (dayCount : Int) (h ut0 : K) : SunVars K :=
  let t : K := ((dayCount : K) + ut0 / 360) / 36525
  let L : K := 280.460 + 36000.777 * t
  let G : K := toRadians m (357.528 + 35999.050 * t)
  let lamda : K := toRadians m (L + 1.915 * m.Sin G + 0.020 * m.Sin (2 * G))
  let epc : K := toRadians m (23.4393 - 0.0130 * t)
  let sigam : K := m.Asin (m.Sin epc * m.Sin lamda)
  let gha : K := ut0 - 180 - 1.915 * m.Sin G - 0.020 * m.Sin (2 * G)
    + 2.466 * m.Sin (2 * lamda) - 0.053 * m.Sin (4 * lamda)
  let e : K := toDegrees m (m.Acos (h - m.Tan lat * m.Tan sigam))
  let utStart : K := ut0 - gha - lng + e
  ⟨t, L, G, lamda, epc, sigam, gha, e, utStart⟩

/-- The loop of `SunRise` (sun.go 22-35), `for ; math.Abs(utStart-ut0) >= 0.1; ut0 = utStart`,
on the pair `(ut0, utStart)`, run for at most `fuel` tests of the condition.  After the body
the post statement copies `utStart` into `ut0`, and only then is the condition tested again. -/
def sunRiseLoop (m : GoMath K) (lat lng : K) (dayCount : Int) (h : K) :
    Nat → K × K → Option (K × K)
  | 0, _ => none
  | fuel + 1, (ut0, utStart) =>
    if |utStart - ut0| ≥ 0.1 then
      let utStart : K := (sunRiseBody m lat lng dayCount h ut0).utStart
      let ut0 : K := utStart
      sunRiseLoop m lat lng dayCount h fuel (ut0, utStart)
    else some (ut0, utStart)

/-- The loop of `SunSet` (sun.go 63-76), modelled as `sunRiseLoop`. -/
def sunSetLoop (m : GoMath K) (lat lng : K) (dayCount : Int) (h : K) :
    Nat → K × K → Option (K × K)
  | 0, _ => none
  | fuel + 1, (ut0, utStart) =>
    if |utStart - ut0| ≥ 0.1 then
      let utStart : K := (sunSetBody m lat lng dayCount h ut0).utStart
      let ut0 : K := utStart
      sunSetLoop m lat lng dayCount h fuel (ut0, utStart)
    else some (ut0, utStart)

/-- The variable `zone` of `SunRise` (sun.go 37-42). -/
def sunRiseZone (lng : K) : Int :=
  if lng ≥ 0 then goTrunc (lng / 15 + 1) else goTrunc (lng / 15 - 1)

/-- The variable `zone` of `SunSet` (sun.go 78-83). -/
def sunSetZone (lng : K) : Int :=
  if lng ≥ 0 then goTrunc (lng / 15 + 1) else goTrunc (lng / 15 - 1)

/-- The two integers `SunRise` formats as `%02d:%02d` (sun.go 43-46). -/
def sunRiseClock (lng utStart : K) : Int × Int :=
  let zone : Int := sunRiseZone lng
  (goTrunc (utStart / 15 + (zone : K)),
   goTrunc (60 * (utStart / 15 + (zone : K) - ((goTrunc (utStart / 15 + (zone : K)) : Int) : K))))

/-- The two integers `SunSet` formats as `%02d:%02d` (sun.go 84-87). -/
def sunSetClock (lng utStart : K) : Int × Int :=
  let zone : Int := sunSetZone lng
  (goTrunc (utStart / 15 + (zone : K)),
   goTrunc (60 * (utStart / 15 + (zone : K) - ((goTrunc (utStart / 15 + (zone : K)) : Int) : K))))

/-- Go: `func SunRise(lat, lng float64)` (sun.go 9-48), with the day count since 2000-01-01
(read from the clock in the source) as a parameter, and the hour and minute handed to
`time.Parse` as the result.  `lat` is in degrees. -/
def SunRise (m : GoMath K) (fuel : Nat) (lat lng : K) (dayCount : Int) : Option (Int × Int) :=
  let lat : K := toRadians m lat
  let ut0 : K := 180
  let utStart : K := 0
  let h : K := m.Sin (toRadians m (-0.833))
  (sunRiseLoop m lat lng dayCount h fuel (ut0, utStart)).map
    (fun s => sunRiseClock lng s.2)

/-- Go: `func SunSet(lat, lng float64)` (sun.go 50-89), modelled as `SunRise`. -/
def SunSet (m : GoMath K) (fuel : Nat) (lat lng : K) (dayCount : Int) : Option (Int × Int) :=
  let lat : K := toRadians m lat
  let ut0 : K := 180
  let utStart : K := 0
  let h : K := m.Sin (toRadians m (-0.833))
  (sunSetLoop m lat lng dayCount h fuel (ut0, utStart)).map
    (fun s => sunSetClock lng s.2)

end Sun

/-- The sum of the discount factors `q, q^2, ..., q^n` (a proof device, not part of the
program). -/
def discountSum (q : ℝ) (n : ℕ) : ℝ :=
  ∑ k in Finset.range n, q ^ (k + 1)

/-- An enclosure of the secant state of `Rate` (a proof device, not part of the program): the
returned `rate` is the latest estimate `x1`, and `x0`, `x1`, `y0`, `y1` lie in the intervals
`[a0, b0]`, `[a1, b1]`, `[c0, d0]`, `[c1, d1]`. -/
def RateEncl (s : RateVars ℝ) (a0 b0 a1 b1 c0 d0 c1 d1 : ℝ) : Prop :=
  s.rate = s.x1 ∧ (a0 ≤ s.x0 ∧ s.x0 ≤ b0) ∧ (a1 ≤ s.x1 ∧ s.x1 ≤ b1) ∧
    (c0 ≤ s.y0 ∧ s.y0 ≤ d0) ∧ (c1 ≤ s.y1 ∧ s.y1 ≤ d1)

/-! ## Reading the real `math` package -/

theorem realMath_Pow (x y : ℝ) : realMath.Pow x y = x ^ y := rfl

/-! ## Closed-form annuity formulas -/

/-- Algebraic core of the round trip, over any ordered field and any power function. -/
theorem Pv_Pmt_of_ne {K : Type} [LinearOrderedField K] (m : GoMath K) (r n p f : K) (t : Bool)
    (hr : r ≠ 0) (hr1 : r + 1 ≠ 0) (hP0 : m.Pow (r + 1) n ≠ 0) (hP1 : m.Pow (r + 1) n ≠ 1) :
    Pv m r n (Pmt m r n p f t) f t = p := by
  have h1 : 1 - m.Pow (r + 1) n ≠ 0 := fun h => hP1 (by linear_combination -h)
  cases t <;> simp [Pv, Pmt, hr] <;> field_simp <;> ring

/-- Claim C1. For every rate `r` with `r ≠ 0` and `r > -1`, every `nper` with
`(1+r)^nper ≠ 1`, every `pv`, `fv` and either timing flag, computing `Pmt` and then `Pv` from
it gives back `pv`, exactly in real arithmetic and hence within a relative error of 1e-6. -/
theorem Pv_Pmt_round_trip (r nper pv fv : ℝ) (t : Bool) (hr0 : r ≠ 0) (hr : r > -1)
    (hP : (1 + r) ^ nper ≠ 1) :
    Pv realMath r nper (Pmt realMath r nper pv fv t) fv t = pv ∧
    |Pv realMath r nper (Pmt realMath r nper pv fv t) fv t - pv| ≤ 0.000001 * |pv| := by
  have hpos : 0 < r + 1 := by linarith
  have hP0 : realMath.Pow (r + 1) nper ≠ 0 := by
    rw [realMath_Pow]; exact (Real.rpow_pos_of_pos hpos nper).ne'
  have hP1 : realMath.Pow (r + 1) nper ≠ 1 := by
    rw [realMath_Pow, add_comm]; exact hP
  have h := Pv_Pmt_of_ne realMath r nper pv fv t hr0 hpos.ne' hP0 hP1
  refine ⟨h, ?_⟩
  rw [h, sub_self, abs_zero]
  positivity

/-- The round trip at rate 1 over 2 periods, principal 100, future value 7, payments at the
start of the period. -/
theorem Pv_Pmt_round_trip_witness :
    (1 : ℝ) ≠ 0 ∧ (1 : ℝ) > -1 ∧ ((1 : ℝ) + 1) ^ (2 : ℝ) ≠ 1 ∧
    Pv realMath 1 2 (Pmt realMath 1 2 100 7 true) 7 true = 100 := by
  have h3 : ((1 : ℝ) + 1) ^ (2 : ℝ) ≠ 1 := by norm_num
  exact ⟨by norm_num, by norm_num, h3,
    (Pv_Pmt_round_trip 1 2 100 7 true (by norm_num) (by norm_num) h3).1⟩

/-- Claim C4. At rate 0 and for `nper ≠ 0`, `Pmt` is `-(fv + pv)/nper` for either timing flag;
in particular `Pmt(0, 360, 30000, 0, false)` is `-30000/360`. -/
theorem Pmt_zero_rate (nper pv fv : ℝ) (t : Bool) (_hn : nper ≠ 0) :
    Pmt realMath 0 nper pv fv t = -(fv + pv) / nper ∧
    Pmt realMath 0 360 30000 0 false = -30000 / 360 := by
  constructor <;> simp [Pmt]

/-- The zero-rate payment over 360 periods, both timing flags. -/
theorem Pmt_zero_rate_witness :
    (360 : ℝ) ≠ 0 ∧ Pmt realMath 0 360 30000 0 true = -(0 + 30000) / 360 :=
  ⟨by norm_num, (Pmt_zero_rate 360 30000 0 true (by norm_num)).1⟩

/-- Claim C5, evaluated on the code. The zero-rate branch of `Fv` returns `-(p + (n + y))`: it
adds the number of periods to the payment where the claim (and the zero-rate branch of `Pv`)
multiplies them.  At `n = 2`, `y = 3`, `p = 0` it returns -5, not -(0 + 2*3) = -6, and `Fv` does
not undo `Pv` at rate 0. -/
theorem Fv_zero_rate_adds_period_count :
    (∀ (n y p : ℝ) (t : Bool), Fv realMath 0 n y p t = -(p + (n + y))) ∧
    Fv realMath 0 2 3 0 false = -5 ∧
    Fv realMath 0 2 3 0 false ≠ -(0 + 2 * 3) ∧
    Pv realMath 0 2 3 1 false = -(2 * 3 + 1) ∧
    Fv realMath 0 2 3 (Pv realMath 0 2 3 1 false) false ≠ 1 := by
  refine ⟨?_, ?_, ?_, ?_, ?_⟩
  · intro n y p t
    simp [Fv]
  all_goals simp [Fv, Pv] <;> norm_num

/-- Claim C6. The payment returned by `Pmt` balances the annuity equation that `Rate` uses as
its residual: for `r ≠ 0`, `r > -1` and `(1+r)^nper ≠ 1`, with `f = (1+r)^nper` and `tp` the
timing flag as 0 or 1, `pv*f + y*(1/r + tp)*(f - 1) + fv = 0`; and at rate 0 with `nper ≠ 0`,
`pv + y*nper + fv = 0`. -/
theorem Pmt_balances_residual (r nper pv fv : ℝ) (t : Bool) :
    (r ≠ 0 → r > -1 → (1 + r) ^ nper ≠ 1 →
      pv * (1 + r) ^ nper
        + Pmt realMath r nper pv fv t * (1 / r + (if t then 1 else 0)) * ((1 + r) ^ nper - 1)
        + fv = 0) ∧
    (nper ≠ 0 → pv + Pmt realMath 0 nper pv fv t * nper + fv = 0) := by
  constructor
  · intro hr0 hr hP
    have h1 : 1 - (1 + r) ^ nper ≠ 0 := fun h => hP (by linear_combination -h)
    have h2 : (1 : ℝ) + r ≠ 0 := by linarith
    cases t <;> simp [Pmt, hr0, realMath_Pow, add_comm r 1] <;> field_simp <;> ring
  · intro hn
    simp [Pmt]
    field_simp

/-- The balance equation at rate 1 over 2 periods with payments at the start of the period, and
at rate 0 over 2 periods. -/
theorem Pmt_balances_residual_witness :
    ((1 : ℝ) ≠ 0 ∧ (1 : ℝ) > -1 ∧ ((1 : ℝ) + 1) ^ (2 : ℝ) ≠ 1 ∧
      (100 : ℝ) * (1 + 1) ^ (2 : ℝ)
        + Pmt realMath 1 2 100 7 true * (1 / 1 + (if true then 1 else 0))
            * ((1 + 1) ^ (2 : ℝ) - 1)
        + 7 = 0) ∧
    ((2 : ℝ) ≠ 0 ∧ (100 : ℝ) + Pmt realMath 0 2 100 7 true * 2 + 7 = 0) := by
  have h3 : ((1 : ℝ) + 1) ^ (2 : ℝ) ≠ 1 := by norm_num
  exact ⟨⟨by norm_num, by norm_num, h3,
      (Pmt_balances_residual 1 2 100 7 true).1 (by norm_num) (by norm_num) h3⟩,
    ⟨by norm_num, (Pmt_balances_residual 0 2 100 7 true).2 (by norm_num)⟩⟩

/-! ## The known loan: 360 periods, payment -146.62, principal 30000 -/

theorem discountSum_mono (n : ℕ) {q1 q2 : ℝ} (h0 : 0 ≤ q1) (h : q1 ≤ q2) :
    discountSum q1 n ≤ discountSum q2 n :=
  Finset.sum_le_sum fun k _ => pow_le_pow_left₀ h0 h (k + 1)

/-- With no future value and payments at the end of the period, `Pv` at a whole number of
periods is minus the payment times the sum of the discount factors, at rate 0 as well. -/
theorem Pv_eq_discountSum (r y : ℝ) (n : ℕ) (hr : -1 < r) :
    Pv realMath r (n : ℝ) y 0 false = -y * discountSum (1 / (1 + r)) n := by
  have hx : (0 : ℝ) < 1 + r := by linarith
  by_cases h0 : r = 0
  · subst h0
    simp [Pv, discountSum]
    ring
  · have hq1 : (1 / (1 + r) : ℝ) ≠ 1 := by
      intro h
      rw [div_eq_iff hx.ne'] at h
      exact h0 (by linarith)
    have hsum : discountSum (1 / (1 + r)) n
        = (1 / (1 + r)) * (((1 / (1 + r)) ^ n - 1) / (1 / (1 + r) - 1)) := by
      rw [← geom_sum_eq hq1 n, Finset.mul_sum]
      exact Finset.sum_congr rfl fun k _ => by ring
    have hP : (1 + r) ^ n ≠ 0 := pow_ne_zero n hx.ne'
    rw [hsum]
    simp only [Pv, if_neg h0, realMath_Pow, Real.rpow_natCast, add_comm r 1]
    simp
    field_simp
    ring

/-- The present value of the known loan does not increase with the rate. -/
theorem Pv_loan_antitone {r s : ℝ} (hr : -1 < r) (hrs : r ≤ s) :
    Pv realMath s 360 (-146.62) 0 false ≤ Pv realMath r 360 (-146.62) 0 false := by
  have e : (360 : ℝ) = ((360 : ℕ) : ℝ) := by norm_num
  have hs : -1 < s := lt_of_lt_of_le hr hrs
  rw [e, Pv_eq_discountSum r _ 360 hr, Pv_eq_discountSum s _ 360 hs]
  have hq : (1 / (1 + s) : ℝ) ≤ 1 / (1 + r) :=
    one_div_le_one_div_of_le (by linarith) (by linarith)
  have hq0 : (0 : ℝ) ≤ 1 / (1 + s) := by
    have : (0 : ℝ) < 1 + s := by linarith
    positivity
  have := discountSum_mono 360 hq0 hq
  nlinarith

/-- At the rate 0.003494947 the present value of the known loan is above 30000.0001. -/
theorem Pv_loan_at_low :
    Pv realMath 0.003494947 360 (-146.62) 0 false > 30000.0001 := by
  have h0 : (0.003494947 : ℝ) ≠ 0 := by norm_num
  have e : (360 : ℝ) = ((360 : ℕ) : ℝ) := by norm_num
  simp only [Pv, if_neg h0, realMath_Pow]
  rw [e, Real.rpow_natCast]
  norm_num

/-- At the rate 0.003496947 the present value of the known loan is below 29999.9999. -/
theorem Pv_loan_at_high :
    Pv realMath 0.003496947 360 (-146.62) 0 false < 29999.9999 := by
  have h0 : (0.003496947 : ℝ) ≠ 0 := by norm_num
  have e : (360 : ℝ) = ((360 : ℕ) : ℝ) := by norm_num
  simp only [Pv, if_neg h0, realMath_Pow]
  rw [e, Real.rpow_natCast]
  norm_num

/-- A rate above -1 that reproduces 30000 within 1e-4 lies strictly between 0.003494947 and
0.003496947. -/
theorem Pv_loan_rate_bounds (r : ℝ) (hr : -1 < r)
    (h : |Pv realMath r 360 (-146.62) 0 false - 30000| ≤ 0.0001) :
    0.003494947 < r ∧ r < 0.003496947 := by
  have hb := abs_le.1 h
  constructor
  · by_contra hc
    have h1 := Pv_loan_antitone hr (not_lt.1 hc)
    have h2 := Pv_loan_at_low
    linarith [hb.2]
  · by_contra hc
    have h1 := Pv_loan_antitone (r := 0.003496947) (by norm_num) (not_lt.1 hc)
    have h2 := Pv_loan_at_high
    linarith [hb.1]

/-- Claim C2 as stated fails. For the known loan no rate within 1e-6 of 0.0025 reproduces the
principal 30000 within 1e-4 through `Pv`, so whatever `Rate` returns, from whatever guess and
after however many iterations, it cannot meet both parts of the claim. -/
theorem Rate_known_loan_not_quarter_percent :
    ¬ ∃ (fuel : Nat) (guess r : ℝ),
      Rate realMath fuel 360 (-146.62) 30000 0 0 guess = some r ∧
      |r - 0.0025| ≤ 0.000001 ∧
      |Pv realMath r 360 (-146.62) 0 false - 30000| ≤ 0.0001 := by
  rintro ⟨_, _, r, -, hr, hpv⟩
  have hb := abs_le.1 hr
  have h1 := (Pv_loan_rate_bounds r (by linarith [hb.1]) hpv).1
  linarith [hb.2]

/-- For the known loan, a periodic rate above -1 whose re-substitution into `Pv` reproduces
30000 within 1e-4 is within 1e-6 of 0.003495947 (about 0.35% a month). -/
theorem Pv_known_loan_rate (r : ℝ) (hr : -1 < r)
    (h : |Pv realMath r 360 (-146.62) 0 false - 30000| ≤ 0.0001) :
    |r - 0.003495947| ≤ 0.000001 := by
  have hb := Pv_loan_rate_bounds r hr h
  rw [abs_le]
  constructor <;> linarith [hb.1, hb.2]

/-- The rate 0.0034959468 reproduces the principal within 1e-4. -/
theorem Pv_known_loan_rate_witness :
    (-1 : ℝ) < 0.0034959468 ∧
    |Pv realMath 0.0034959468 360 (-146.62) 0 false - 30000| ≤ 0.0001 ∧
    |(0.0034959468 : ℝ) - 0.003495947| ≤ 0.000001 := by
  have hp : |Pv realMath 0.0034959468 360 (-146.62) 0 false - 30000| ≤ 0.0001 := by
    have h0 : (0.0034959468 : ℝ) ≠ 0 := by norm_num
    have e : (360 : ℝ) = ((360 : ℕ) : ℝ) := by norm_num
    simp only [Pv, if_neg h0, realMath_Pow]
    rw [e, Real.rpow_natCast, abs_le]
    constructor <;> norm_num
  exact ⟨by norm_num, hp, Pv_known_loan_rate 0.0034959468 (by norm_num) hp⟩

/-! ## The rate solver -/

theorem rateInit_clamp {K : Type} [LinearOrderedField K] (m : GoMath K)
    (nper pmt pv fv tp guess : K) (h : guess ≤ 0 ∨ guess ≥ 1) :
    rateInit m nper pmt pv fv tp guess = rateInit m nper pmt pv fv tp 0.1 := by
  have h2 : ¬ ((0.1 : K) ≤ 0 ∨ (0.1 : K) ≥ 1) := by norm_num
  simp only [rateInit, if_pos h, if_neg h2]

/-- Claim C3. For every guess with `guess ≤ 0` or `guess ≥ 1`, `Rate` behaves, for every number
of loop tests allowed, exactly as with the guess 0.1: the guess is replaced, never rejected. -/
theorem Rate_guess_clamped (fuel : Nat) (nper pmt pv fv tp guess : ℝ)
    (h : guess ≤ 0 ∨ guess ≥ 1) :
    Rate realMath fuel nper pmt pv fv tp guess = Rate realMath fuel nper pmt pv fv tp 0.1 := by
  unfold Rate
  rw [rateInit_clamp realMath nper pmt pv fv tp guess h]

/-- The guesses 2 and -3 on the known loan. -/
theorem Rate_guess_clamped_witness :
    (((2 : ℝ) ≤ 0 ∨ (2 : ℝ) ≥ 1) ∧
      Rate realMath 5 360 (-146.62) 30000 0 0 2
        = Rate realMath 5 360 (-146.62) 30000 0 0 0.1) ∧
    (((-3 : ℝ) ≤ 0 ∨ (-3 : ℝ) ≥ 1) ∧
      Rate realMath 5 360 (-146.62) 30000 0 0 (-3)
        = Rate realMath 5 360 (-146.62) 30000 0 0 0.1) :=
  ⟨⟨Or.inr (by norm_num),
      Rate_guess_clamped 5 360 (-146.62) 30000 0 0 2 (Or.inr (by norm_num))⟩,
    ⟨Or.inl (by norm_num),
      Rate_guess_clamped 5 360 (-146.62) 30000 0 0 (-3) (Or.inl (by norm_num))⟩⟩

theorem rateContinues_iff {K : Type} [LinearOrderedField K] (s : RateVars K) :
    rateContinues s = true ↔ |s.y0 - s.y1| > 0.000000001 := by
  simp [rateContinues, FINANCIAL_PRECISION, FINANCIAL_MAX_ITERATIONS]

/-- The loop of `Rate` is only left through a failed loop test. -/
theorem rateLoop_some {K : Type} [LinearOrderedField K] (m : GoMath K) (nper pmt pv fv tp : K) :
    ∀ (fuel : Nat) (s s' : RateVars K), rateLoop m nper pmt pv fv tp fuel s = some s' →
      rateContinues s' = false := by
  intro fuel
  induction fuel with
  | zero => intro s s' h; simp [rateLoop] at h
  | succ n ih =>
    intro s s' h
    rw [rateLoop] at h
    by_cases hc : rateContinues s = true
    · rw [if_pos hc] at h
      exact ih _ _ h
    · rw [if_neg hc] at h
      cases h
      simpa using hc

/-- While the loop test succeeds the loop of `Rate` keeps running, whatever the count. -/
theorem rateLoop_none {K : Type} [LinearOrderedField K] (m : GoMath K) (nper pmt pv fv tp : K) :
    ∀ (n : Nat) (s : RateVars K),
      (∀ k, k < n → rateContinues ((rateStep m nper pmt pv fv tp)^[k] s) = true) →
      rateLoop m nper pmt pv fv tp n s = none := by
  intro n
  induction n with
  | zero => intro s _; rfl
  | succ n ih =>
    intro s h
    have h0 : rateContinues s = true := by simpa using h 0 (Nat.succ_pos n)
    rw [rateLoop, if_pos h0]
    apply ih
    intro k hk
    have := h (k + 1) (Nat.succ_lt_succ hk)
    simpa [Function.iterate_succ_apply] using this

/-- Claim C10. The iteration cap of `Rate` is ineffective. For every state the loop test
succeeds exactly when `|y0 - y1| > 1e-9` and fails exactly when `|y0 - y1| ≤ 1e-9`; it does not
depend on the counter `i`; a loop that has stopped has `|y0 - y1| ≤ 1e-9`; and for every number
`n`, if the residual test succeeds on each of the first `n` states the loop is still running
after `n` tests. -/
theorem Rate_cap_ineffective (nper pmt pv fv tp : ℝ) (s : RateVars ℝ) :
    (rateContinues s = true ↔ |s.y0 - s.y1| > 0.000000001) ∧
    (rateContinues s = false ↔ |s.y0 - s.y1| ≤ 0.000000001) ∧
    (∀ j : ℝ, rateContinues ⟨s.rate, s.y, s.y0, s.y1, s.x0, s.x1, s.f, j⟩ = rateContinues s) ∧
    (∀ (fuel : Nat) (s' : RateVars ℝ),
      rateLoop realMath nper pmt pv fv tp fuel s = some s' → |s'.y0 - s'.y1| ≤ 0.000000001) ∧
    (∀ n : Nat,
      (∀ k, k < n →
        |((rateStep realMath nper pmt pv fv tp)^[k] s).y0
          - ((rateStep realMath nper pmt pv fv tp)^[k] s).y1| > 0.000000001) →
      rateLoop realMath nper pmt pv fv tp n s = none) := by
  have hf : ∀ s : RateVars ℝ, rateContinues s = false ↔ |s.y0 - s.y1| ≤ 0.000000001 := by
    intro s
    rw [← not_lt, ← gt_iff_lt, ← rateContinues_iff]
    simp
  refine ⟨rateContinues_iff s, hf s, ?_, ?_, ?_⟩
  · intro j
    simp [rateContinues]
  · intro fuel s' h
    exact (hf s').1 (rateLoop_some realMath nper pmt pv fv tp fuel s s' h)
  · intro n h
    apply rateLoop_none
    intro k hk
    exact (rateContinues_iff _).2 (h k hk)

/-- A state whose counter is already 200: the loop test still succeeds when the residuals
differ by 1, and a one-test run is then still going; with equal residuals the loop stops. -/
theorem Rate_cap_ineffective_witness :
    (|(1 : ℝ) - 0| > 0.000000001 ∧
      rateContinues (⟨0, 0, 1, 0, 0, 0, 0, 200⟩ : RateVars ℝ) = true) ∧
    ((∀ k, k < 1 →
        |((rateStep realMath 360 (-146.62) 30000 0 0)^[k] ⟨0, 0, 1, 0, 0, 0, 0, 200⟩).y0
          - ((rateStep realMath 360 (-146.62) 30000 0 0)^[k] ⟨0, 0, 1, 0, 0, 0, 0, 200⟩).y1|
          > 0.000000001) ∧
      rateLoop realMath 360 (-146.62) 30000 0 0 1 ⟨0, 0, 1, 0, 0, 0, 0, 200⟩ = none) ∧
    (rateLoop realMath 360 (-146.62) 30000 0 0 1 ⟨0, 0, 0, 0, 0, 0, 0, 200⟩
        = some ⟨0, 0, 0, 0, 0, 0, 0, 200⟩ ∧
      |(0 : ℝ) - 0| ≤ 0.000000001) := by
  have h1 : |(1 : ℝ) - 0| > 0.000000001 := by norm_num
  have h2 : ∀ k, k < 1 →
      |((rateStep realMath 360 (-146.62) 30000 0 0)^[k] ⟨0, 0, 1, 0, 0, 0, 0, 200⟩).y0
        - ((rateStep realMath 360 (-146.62) 30000 0 0)^[k] ⟨0, 0, 1, 0, 0, 0, 0, 200⟩).y1|
        > 0.000000001 := by
    intro k hk
    obtain rfl : k = 0 := by omega
    simpa using h1
  have h3 : rateLoop realMath 360 (-146.62) 30000 0 0 1 ⟨0, 0, 0, 0, 0, 0, 0, 200⟩
      = some ⟨0, 0, 0, 0, 0, 0, 0, 200⟩ := by
    have hc : ¬ rateContinues (⟨0, 0, 0, 0, 0, 0, 0, 200⟩ : RateVars ℝ) = true := by
      rw [rateContinues_iff]
      norm_num
    rw [rateLoop, if_neg hc]
  exact ⟨⟨h1, (Rate_cap_ineffective 360 (-146.62) 30000 0 0 ⟨0, 0, 1, 0, 0, 0, 0, 200⟩).1.2 h1⟩,
    ⟨h2, (Rate_cap_ineffective 360 (-146.62) 30000 0 0 ⟨0, 0, 1, 0, 0, 0, 0, 200⟩).2.2.2.2 1 h2⟩,
    ⟨h3, (Rate_cap_ineffective 360 (-146.62) 30000 0 0 ⟨0, 0, 0, 0, 0, 0, 0, 200⟩).2.2.2.1 1 _ h3⟩⟩

/-! ## The solar event solver -/

theorem goTrunc_of_nonneg {K : Type} [LinearOrderedField K] [FloorRing K] {x : K} (h : 0 ≤ x) :
    goTrunc x = ⌊x⌋ := by
  simp [goTrunc, h]

theorem goTrunc_of_neg {K : Type} [LinearOrderedField K] [FloorRing K] {x : K} (h : x < 0) :
    goTrunc x = ⌈x⌉ := by
  simp [goTrunc, not_le.2 h]

/-- Claim C7 as stated fails. At longitude 10 the zone of `SunRise` and of `SunSet` is 1, while
rounding 10/15 to the nearest integer and adding 1 gives 2. -/
theorem zone_not_rounded :
    sunRiseZone (10 : ℝ) = 1 ∧ sunSetZone (10 : ℝ) = 1 ∧
    round ((10 : ℝ) / 15) + 1 = 2 ∧
    sunRiseZone (10 : ℝ) ≠ round ((10 : ℝ) / 15) + 1 ∧
    sunSetZone (10 : ℝ) ≠ round ((10 : ℝ) / 15) + 1 := by
  have hz : goTrunc ((10 : ℝ) / 15 + 1) = 1 := by
    rw [goTrunc_of_nonneg (by norm_num), Int.floor_eq_iff]
    norm_num
  have h1 : sunRiseZone (10 : ℝ) = 1 := by
    simp only [sunRiseZone]
    rw [if_pos (by norm_num)]
    exact hz
  have h2 : sunSetZone (10 : ℝ) = 1 := by
    simp only [sunSetZone]
    rw [if_pos (by norm_num)]
    exact hz
  have h3 : round ((10 : ℝ) / 15) = 1 := by
    rw [round_eq, Int.floor_eq_iff]
    norm_num
  refine ⟨h1, h2, ?_, ?_, ?_⟩
  · rw [h3]; rfl
  · rw [h1, h3]; decide
  · rw [h2, h3]; decide

/-- Claim C7, amended. For every longitude whose zone fits a 64-bit integer, the zone of
`SunRise` and of `SunSet` is the integer part of `lng/15` (the fraction discarded, not rounded
to the nearest integer) plus 1 when `lng ≥ 0`, and minus 1 when `lng < 0`. -/
theorem zone_truncates (lng : ℝ) (_hlo : -(2 : ℝ) ^ 63 < lng / 15 - 1)
    (_hhi : lng / 15 + 1 < (2 : ℝ) ^ 63) :
    (lng ≥ 0 → sunRiseZone lng = ⌊lng / 15⌋ + 1 ∧ sunSetZone lng = ⌊lng / 15⌋ + 1) ∧
    (lng < 0 → sunRiseZone lng = ⌈lng / 15⌉ - 1 ∧ sunSetZone lng = ⌈lng / 15⌉ - 1) := by
  constructor
  · intro h
    have h1 : (0 : ℝ) ≤ lng / 15 + 1 := by linarith [div_nonneg h (by norm_num : (0 : ℝ) ≤ 15)]
    simp only [sunRiseZone, sunSetZone, if_pos h, goTrunc_of_nonneg h1, Int.floor_add_one]
    exact ⟨trivial, trivial⟩
  · intro h
    have h0 : lng / 15 < 0 := div_neg_of_neg_of_pos h (by norm_num)
    have h1 : lng / 15 - 1 < 0 := by linarith
    simp only [sunRiseZone, sunSetZone, if_neg (not_le.2 h), goTrunc_of_neg h1, Int.ceil_sub_one]
    exact ⟨trivial, trivial⟩

/-- The zones at longitude 10 and at longitude -10. -/
theorem zone_truncates_witness :
    (-(2 : ℝ) ^ 63 < 10 / 15 - 1 ∧ (10 : ℝ) / 15 + 1 < (2 : ℝ) ^ 63 ∧ (10 : ℝ) ≥ 0 ∧
      sunRiseZone (10 : ℝ) = ⌊(10 : ℝ) / 15⌋ + 1 ∧ sunSetZone (10 : ℝ) = ⌊(10 : ℝ) / 15⌋ + 1) ∧
    (-(2 : ℝ) ^ 63 < -10 / 15 - 1 ∧ (-10 : ℝ) / 15 + 1 < (2 : ℝ) ^ 63 ∧ (-10 : ℝ) < 0 ∧
      sunRiseZone (-10 : ℝ) = ⌈(-10 : ℝ) / 15⌉ - 1 ∧
      sunSetZone (-10 : ℝ) = ⌈(-10 : ℝ) / 15⌉ - 1) :=
  ⟨⟨by norm_num, by norm_num, by norm_num,
      (zone_truncates 10 (by norm_num) (by norm_num)).1 (by norm_num)⟩,
    ⟨by norm_num, by norm_num, by norm_num,
      (zone_truncates (-10) (by norm_num) (by norm_num)).2 (by norm_num)⟩⟩

/-- Claim C8. `SunRise` and `SunSet` differ only in the sign of `e`: for every latitude,
longitude, day count, altitude term `h` and trial angle `ut0`, the two loop bodies compute the
same `t`, `L`, `G`, `lamda`, `epc`, `sigam`, `gha` and `e = toDegrees(acos(h - tan(lat) *
tan(sigam)))`; sunrise sets `utStart = ut0 - gha - lng - e` and sunset
`ut0 - gha - lng + e`, which differ by `2*e`; and the zone and the hour and minute are the same
function of the longitude and the solved angle in both. -/
theorem SunRise_SunSet_differ_in_sign_of_e (lat lng h ut0 u : ℝ) (dayCount : Int) :
    (sunRiseBody realMath lat lng dayCount h ut0).t
      = (sunSetBody realMath lat lng dayCount h ut0).t ∧
    (sunRiseBody realMath lat lng dayCount h ut0).L
      = (sunSetBody realMath lat lng dayCount h ut0).L ∧
    (sunRiseBody realMath lat lng dayCount h ut0).G
      = (sunSetBody realMath lat lng dayCount h ut0).G ∧
    (sunRiseBody realMath lat lng dayCount h ut0).lamda
      = (sunSetBody realMath lat lng dayCount h ut0).lamda ∧
    (sunRiseBody realMath lat lng dayCount h ut0).epc
      = (sunSetBody realMath lat lng dayCount h ut0).epc ∧
    (sunRiseBody realMath lat lng dayCount h ut0).sigam
      = (sunSetBody realMath lat lng dayCount h ut0).sigam ∧
    (sunRiseBody realMath lat lng dayCount h ut0).gha
      = (sunSetBody realMath lat lng dayCount h ut0).gha ∧
    (sunRiseBody realMath lat lng dayCount h ut0).e
      = (sunSetBody realMath lat lng dayCount h ut0).e ∧
    (sunRiseBody realMath lat lng dayCount h ut0).e
      = toDegrees realMath (Real.arccos
          (h - Real.tan lat * Real.tan (sunRiseBody realMath lat lng dayCount h ut0).sigam)) ∧
    (sunRiseBody realMath lat lng dayCount h ut0).utStart
      = ut0 - (sunRiseBody realMath lat lng dayCount h ut0).gha - lng
          - (sunRiseBody realMath lat lng dayCount h ut0).e ∧
    (sunSetBody realMath lat lng dayCount h ut0).utStart
      = ut0 - (sunSetBody realMath lat lng dayCount h ut0).gha - lng
          + (sunSetBody realMath lat lng dayCount h ut0).e ∧
    (sunSetBody realMath lat lng dayCount h ut0).utStart
      - (sunRiseBody realMath lat lng dayCount h ut0).utStart
      = 2 * (sunRiseBody realMath lat lng dayCount h ut0).e ∧
    sunRiseZone lng = sunSetZone lng ∧
    sunRiseClock lng u = sunSetClock lng u := by
  refine ⟨rfl, rfl, rfl, rfl, rfl, rfl, rfl, rfl, rfl, rfl, rfl, ?_, rfl, rfl⟩
  simp only [sunRiseBody, sunSetBody]
  ring

/-- Run from the initial pair `(180, 0)`, the loop of `SunRise` makes one pass and stops: the
post statement has made `ut0` equal to `utStart` before the condition is tested again. -/
theorem sunRiseLoop_init (m : GoMath ℝ) (lat lng h : ℝ) (dayCount : Int) (fuel : Nat) :
    sunRiseLoop m lat lng dayCount h (fuel + 2) (180, 0)
      = some ((sunRiseBody m lat lng dayCount h 180).utStart,
              (sunRiseBody m lat lng dayCount h 180).utStart) := by
  have h1 : |(0 : ℝ) - 180| ≥ 0.1 := by norm_num
  rw [sunRiseLoop, if_pos h1]
  simp only []
  rw [sunRiseLoop, if_neg (by norm_num)]

/-- Run from the initial pair `(180, 0)`, the loop of `SunSet` makes one pass and stops. -/
theorem sunSetLoop_init (m : GoMath ℝ) (lat lng h : ℝ) (dayCount : Int) (fuel : Nat) :
    sunSetLoop m lat lng dayCount h (fuel + 2) (180, 0)
      = some ((sunSetBody m lat lng dayCount h 180).utStart,
              (sunSetBody m lat lng dayCount h 180).utStart) := by
  have h1 : |(0 : ℝ) - 180| ≥ 0.1 := by norm_num
  rw [sunSetLoop, if_pos h1]
  simp only []
  rw [sunSetLoop, if_neg (by norm_num)]

theorem toDegrees_arccos_nonneg (x : ℝ) : 0 ≤ toDegrees realMath (Real.arccos x) := by
  have := Real.arccos_nonneg x
  have hpi := Real.pi_pos
  simp only [toDegrees, realMath]
  positivity

/-- The sine terms of the hour-angle correction `gha` add up to at most 4.454 in size. -/
theorem sin_terms_bound (G lam : ℝ) :
    -4.454 ≤ -(1.915 * Real.sin G) - 0.020 * Real.sin (2 * G)
      + 2.466 * Real.sin (2 * lam) - 0.053 * Real.sin (4 * lam) ∧
    -(1.915 * Real.sin G) - 0.020 * Real.sin (2 * G)
      + 2.466 * Real.sin (2 * lam) - 0.053 * Real.sin (4 * lam) ≤ 4.454 := by
  have a1 := Real.neg_one_le_sin G
  have a2 := Real.neg_one_le_sin (2 * G)
  have a3 := Real.neg_one_le_sin (2 * lam)
  have a4 := Real.neg_one_le_sin (4 * lam)
  have b1 := Real.sin_le_one G
  have b2 := Real.sin_le_one (2 * G)
  have b3 := Real.sin_le_one (2 * lam)
  have b4 := Real.sin_le_one (4 * lam)
  constructor <;> linarith

/-- East of longitude 5 the first sunrise update lies more than half a degree below 180. -/
theorem sunRiseBody_far (lat lng h : ℝ) (dayCount : Int) (hl : 5 ≤ lng) :
    (sunRiseBody realMath lat lng dayCount h 180).utStart - 180 ≤ -0.5 := by
  have he := toDegrees_arccos_nonneg
    (h - Real.tan lat * Real.tan (sunRiseBody realMath lat lng dayCount h 180).sigam)
  have hb := (sin_terms_bound (sunRiseBody realMath lat lng dayCount h 180).G
    (sunRiseBody realMath lat lng dayCount h 180).lamda).1
  have hu : (sunRiseBody realMath lat lng dayCount h 180).utStart
      = 180 - (180 - 180 - 1.915 * Real.sin (sunRiseBody realMath lat lng dayCount h 180).G
          - 0.020 * Real.sin (2 * (sunRiseBody realMath lat lng dayCount h 180).G)
          + 2.466 * Real.sin (2 * (sunRiseBody realMath lat lng dayCount h 180).lamda)
          - 0.053 * Real.sin (4 * (sunRiseBody realMath lat lng dayCount h 180).lamda))
        - lng
        - toDegrees realMath (Real.arccos
            (h - Real.tan lat * Real.tan (sunRiseBody realMath lat lng dayCount h 180).sigam)) :=
    rfl
  rw [hu]
  linarith

/-- West of longitude -5 the first sunset update lies more than half a degree above 180. -/
theorem sunSetBody_far (lat lng h : ℝ) (dayCount : Int) (hl : lng ≤ -5) :
    0.5 ≤ (sunSetBody realMath lat lng dayCount h 180).utStart - 180 := by
  have he := toDegrees_arccos_nonneg
    (h - Real.tan lat * Real.tan (sunSetBody realMath lat lng dayCount h 180).sigam)
  have hb := (sin_terms_bound (sunSetBody realMath lat lng dayCount h 180).G
    (sunSetBody realMath lat lng dayCount h 180).lamda).2
  have hu : (sunSetBody realMath lat lng dayCount h 180).utStart
      = 180 - (180 - 180 - 1.915 * Real.sin (sunSetBody realMath lat lng dayCount h 180).G
          - 0.020 * Real.sin (2 * (sunSetBody realMath lat lng dayCount h 180).G)
          + 2.466 * Real.sin (2 * (sunSetBody realMath lat lng dayCount h 180).lamda)
          - 0.053 * Real.sin (4 * (sunSetBody realMath lat lng dayCount h 180).lamda))
        - lng
        + toDegrees realMath (Real.arccos
            (h - Real.tan lat * Real.tan (sunSetBody realMath lat lng dayCount h 180).sigam)) :=
    rfl
  rw [hu]
  linarith

/-- Claim C9, evaluated on the code. At latitude 0, day count 0 and longitude 10 the loop of
`SunRise` stops after its first pass with a trial angle `utStart` that is at least 0.1 degree
(in fact more than half a degree) away from the trial angle 180 it was computed from; the loop
of `SunSet` does the same at longitude -10. -/
theorem sun_loop_stops_unconverged :
    (∃ u : ℝ,
      sunRiseLoop realMath (toRadians realMath 0) 10 0 (realMath.Sin (toRadians realMath (-0.833)))
        2 (180, 0) = some (u, u) ∧
      u = (sunRiseBody realMath (toRadians realMath 0) 10 0
            (realMath.Sin (toRadians realMath (-0.833))) 180).utStart ∧
      |u - 180| ≥ 0.1) ∧
    (∃ u : ℝ,
      sunSetLoop realMath (toRadians realMath 0) (-10) 0
        (realMath.Sin (toRadians realMath (-0.833))) 2 (180, 0) = some (u, u) ∧
      u = (sunSetBody realMath (toRadians realMath 0) (-10) 0
            (realMath.Sin (toRadians realMath (-0.833))) 180).utStart ∧
      |u - 180| ≥ 0.1) := by
  constructor
  · refine ⟨_, sunRiseLoop_init _ _ _ _ _ 0, rfl, ?_⟩
    have := sunRiseBody_far (toRadians realMath 0) 10
      (realMath.Sin (toRadians realMath (-0.833))) 0 (by norm_num)
    rw [ge_iff_le, le_abs]
    right
    linarith
  · refine ⟨_, sunSetLoop_init _ _ _ _ _ 0, rfl, ?_⟩
    have := sunSetBody_far (toRadians realMath 0) (-10)
      (realMath.Sin (toRadians realMath (-0.833))) 0 (by norm_num)
    rw [ge_iff_le, le_abs]
    left
    linarith

/-! ## The seeds of the rate solver -/

theorem realMath_Exp_Log {x : ℝ} (hx : 0 < x) (y : ℝ) :
    realMath.Exp (y * realMath.Log x) = x ^ y := by
  show Real.exp (y * Real.log x) = x ^ y
  rw [Real.rpow_def_of_pos hx, mul_comm]

/-- The state of `Rate` on reaching the loop, for a guess in `[1e-9, 1)`. -/
theorem rateInit_of_guess (nper pmt pv fv tp guess : ℝ)
    (hlo : 0.000000001 ≤ guess) (hhi : guess < 1) :
    rateInit realMath nper pmt pv fv tp guess
      = ⟨guess,
         pv * (1 + guess) ^ nper + pmt * (1 / guess + tp) * ((1 + guess) ^ nper - 1) + fv,
         pv + pmt * nper + fv,
         pv * (1 + guess) ^ nper + pmt * (1 / guess + tp) * ((1 + guess) ^ nper - 1) + fv,
         0, guess, (1 + guess) ^ nper, 0⟩ := by
  have hpos : 0 < guess := lt_of_lt_of_le (by norm_num) hlo
  have h1 : ¬ (guess ≤ 0 ∨ guess ≥ 1) := by
    rintro (h | h) <;> linarith
  have h2 : ¬ |guess| < (FINANCIAL_PRECISION : ℝ) := by
    rw [abs_of_pos hpos, FINANCIAL_PRECISION]
    exact not_lt.2 hlo
  have h3 : realMath.Exp (nper * realMath.Log (1 + guess)) = (1 + guess) ^ nper :=
    realMath_Exp_Log (by linarith) nper
  simp only [rateInit, if_neg h1, if_neg h2, h3]

/-- Claim C11 as stated fails. The guess 1e-10 lies in the open interval (0,1) but below the
precision 1e-9: `Rate` takes the linear branch, `f` keeps its initial value 0, and with
`nper = 1`, `pmt = 0`, `pv = 1`, `fv = 0`, `tp = 0` the seed `y1` is 0, whereas the compounding
form with `f = (1 + guess)^nper` is `1 + 1e-10`. -/
theorem Rate_seed_tiny_guess :
    (0 : ℝ) < 0.0000000001 ∧ (0.0000000001 : ℝ) < 1 ∧
    (rateInit realMath 1 0 1 0 0 0.0000000001).f = 0 ∧
    (rateInit realMath 1 0 1 0 0 0.0000000001).y1 = 0 ∧
    (rateInit realMath 1 0 1 0 0 0.0000000001).y1
      ≠ 1 * (1 + 0.0000000001) ^ (1 : ℝ)
          + 0 * (1 / 0.0000000001 + 0) * ((1 + 0.0000000001) ^ (1 : ℝ) - 1) + 0 := by
  have h1 : ¬ ((0.0000000001 : ℝ) ≤ 0 ∨ (0.0000000001 : ℝ) ≥ 1) := by norm_num
  have h2 : |(0.0000000001 : ℝ)| < (FINANCIAL_PRECISION : ℝ) := by
    rw [FINANCIAL_PRECISION, abs_of_pos (by norm_num)]
    norm_num
  have hf : (rateInit realMath 1 0 1 0 0 0.0000000001).f = 0 := by
    simp only [rateInit, if_neg h1, if_pos h2]
  have hy : (rateInit realMath 1 0 1 0 0 0.0000000001).y1 = 0 := by
    simp only [rateInit, if_neg h1, if_pos h2]
    norm_num
  refine ⟨by norm_num, by norm_num, hf, hy, ?_⟩
  rw [hy, Real.rpow_one]
  norm_num

/-- Claim C11, amended. For every guess with `1e-9 ≤ guess < 1` and every `nper`, `pmt`, `pv`,
`fv`, `tp`, before the first iteration `x0 = 0`, `x1 = guess`, `y0 = pv + pmt*nper + fv`, and
`y1` is the compounding form `pv*f + pmt*(1/guess + tp)*(f - 1) + fv` with
`f = (1 + guess)^nper`. -/
theorem Rate_seed_residuals (nper pmt pv fv tp guess : ℝ)
    (hlo : 0.000000001 ≤ guess) (hhi : guess < 1) :
    (rateInit realMath nper pmt pv fv tp guess).x0 = 0 ∧
    (rateInit realMath nper pmt pv fv tp guess).x1 = guess ∧
    (rateInit realMath nper pmt pv fv tp guess).y0 = pv + pmt * nper + fv ∧
    (rateInit realMath nper pmt pv fv tp guess).y1
      = pv * (1 + guess) ^ nper + pmt * (1 / guess + tp) * ((1 + guess) ^ nper - 1) + fv := by
  rw [rateInit_of_guess nper pmt pv fv tp guess hlo hhi]
  exact ⟨rfl, rfl, rfl, rfl⟩

/-- The seeds of the known loan at the guess 0.5. -/
theorem Rate_seed_residuals_witness :
    (0.000000001 : ℝ) ≤ 0.5 ∧ (0.5 : ℝ) < 1 ∧
    (rateInit realMath 360 (-146.62) 30000 0 0 0.5).x0 = 0 ∧
    (rateInit realMath 360 (-146.62) 30000 0 0 0.5).x1 = 0.5 ∧
    (rateInit realMath 360 (-146.62) 30000 0 0 0.5).y0 = 30000 + (-146.62) * 360 + 0 ∧
    (rateInit realMath 360 (-146.62) 30000 0 0 0.5).y1
      = 30000 * (1 + 0.5) ^ (360 : ℝ)
          + (-146.62) * (1 / 0.5 + 0) * ((1 + 0.5) ^ (360 : ℝ) - 1) + 0 :=
  ⟨by norm_num, by norm_num,
    Rate_seed_residuals 360 (-146.62) 30000 0 0 0.5 (by norm_num) (by norm_num)⟩

/-- Claim C13. An exact root is a fixed point of `Rate`: for `1e-9 ≤ g < 1` at which the
compounding residual is 0, and with `|pv + pmt*nper + fv| > 1e-9`, the loop makes exactly one
secant iteration (it is still running after one test, and stops at the second with the counter
at 1) and `Rate` returns `g`. -/
theorem Rate_exact_root_fixed_point (fuel : Nat) (nper pmt pv fv tp g : ℝ)
    (hlo : 0.000000001 ≤ g) (hhi : g < 1)
    (hroot : pv * (1 + g) ^ nper + pmt * (1 / g + tp) * ((1 + g) ^ nper - 1) + fv = 0)
    (hy0 : |pv + pmt * nper + fv| > 0.000000001) :
    (∃ s : RateVars ℝ,
      rateLoop realMath nper pmt pv fv tp (fuel + 2) (rateInit realMath nper pmt pv fv tp g)
        = some s ∧ s.i = 1 ∧ s.rate = g) ∧
    rateLoop realMath nper pmt pv fv tp 1 (rateInit realMath nper pmt pv fv tp g) = none ∧
    Rate realMath (fuel + 2) nper pmt pv fv tp g = some g := by
  have hpos : 0 < g := lt_of_lt_of_le (by norm_num) hlo
  have hY : pv + pmt * nper + fv ≠ 0 := by
    intro h
    rw [h, abs_zero] at hy0
    norm_num at hy0
  have h2 : ¬ |g| < (FINANCIAL_PRECISION : ℝ) := by
    rw [abs_of_pos hpos, FINANCIAL_PRECISION]
    exact not_lt.2 hlo
  have hinit := rateInit_of_guess nper pmt pv fv tp g hlo hhi
  rw [hroot] at hinit
  have hc0 : rateContinues (rateInit realMath nper pmt pv fv tp g) = true := by
    rw [rateContinues_iff, hinit]
    simpa using hy0
  have hrate : (0 * 0 - (pv + pmt * nper + fv) * g) / (0 - (pv + pmt * nper + fv)) = g := by
    rw [zero_mul, zero_sub, zero_sub, neg_div_neg_eq, mul_div_cancel_left₀ _ hY]
  have hstep : rateStep realMath nper pmt pv fv tp (rateInit realMath nper pmt pv fv tp g)
      = ⟨g, 0, 0, 0, g, g, (1 + g) ^ nper, 1⟩ := by
    rw [hinit]
    simp only [rateStep, hrate, if_neg h2, realMath_Pow, hroot, zero_add]
  have hc1 : ¬ rateContinues (⟨g, 0, 0, 0, g, g, (1 + g) ^ nper, 1⟩ : RateVars ℝ) = true := by
    rw [rateContinues_iff]
    norm_num
  have hl : rateLoop realMath nper pmt pv fv tp (fuel + 2) (rateInit realMath nper pmt pv fv tp g)
      = some ⟨g, 0, 0, 0, g, g, (1 + g) ^ nper, 1⟩ := by
    rw [rateLoop, if_pos hc0, hstep, rateLoop, if_neg hc1]
  refine ⟨⟨_, hl, rfl, rfl⟩, ?_, ?_⟩
  · rw [rateLoop, if_pos hc0, rateLoop]
  · rw [Rate, hl]
    rfl

/-- The root 0.5 of the annuity with 2 periods, payment -2, present value 4, future value -4. -/
theorem Rate_exact_root_fixed_point_witness :
    (0.000000001 : ℝ) ≤ 0.5 ∧ (0.5 : ℝ) < 1 ∧
    (4 : ℝ) * (1 + 0.5) ^ (2 : ℝ) + (-2) * (1 / 0.5 + 0) * ((1 + 0.5) ^ (2 : ℝ) - 1) + (-4) = 0 ∧
    |(4 : ℝ) + (-2) * 2 + (-4)| > 0.000000001 ∧
    Rate realMath 2 2 (-2) 4 (-4) 0 0.5 = some 0.5 := by
  have hroot : (4 : ℝ) * (1 + 0.5) ^ (2 : ℝ) + (-2) * (1 / 0.5 + 0) * ((1 + 0.5) ^ (2 : ℝ) - 1)
      + (-4) = 0 := by
    norm_num
  have hy0 : |(4 : ℝ) + (-2) * 2 + (-4)| > 0.000000001 := by
    norm_num
  exact ⟨by norm_num, by norm_num, hroot, hy0,
    (Rate_exact_root_fixed_point 0 2 (-2) 4 (-4) 0 0.5 (by norm_num) (by norm_num)
      hroot hy0).2.2⟩

/-- Claim C14. The exit test of `Rate` does not imply a small residual: with `pv = 0` and
`pmt = 0`, for every `nper`, `fv`, `tp` and guess, both seeds `y0` and `y1` equal `fv`, the loop
stops at its first test without an iteration (counter 0, residual `y1 = fv`), and `Rate`
returns the clamped guess: the guess itself if `0 < guess < 1`, else 0.1. -/
theorem Rate_zero_pv_pmt_returns_guess (fuel : Nat) (nper fv tp guess : ℝ) :
    (rateInit realMath nper 0 0 fv tp guess).y0 = fv ∧
    (rateInit realMath nper 0 0 fv tp guess).y1 = fv ∧
    (∃ s : RateVars ℝ,
      rateLoop realMath nper 0 0 fv tp (fuel + 1) (rateInit realMath nper 0 0 fv tp guess)
        = some s ∧ s.i = 0 ∧ s.y1 = fv) ∧
    Rate realMath (fuel + 1) nper 0 0 fv tp guess
      = some (if 0 < guess ∧ guess < 1 then guess else 0.1) := by
  have hy0 : (rateInit realMath nper 0 0 fv tp guess).y0 = fv := by
    simp [rateInit]
  have hy1 : (rateInit realMath nper 0 0 fv tp guess).y1 = fv := by
    simp [rateInit]
  have hc : ¬ rateContinues (rateInit realMath nper 0 0 fv tp guess) = true := by
    rw [rateContinues_iff, hy0, hy1]
    norm_num
  have hl : rateLoop realMath nper 0 0 fv tp (fuel + 1) (rateInit realMath nper 0 0 fv tp guess)
      = some (rateInit realMath nper 0 0 fv tp guess) := by
    rw [rateLoop, if_neg hc]
  refine ⟨hy0, hy1, ⟨_, hl, rfl, hy1⟩, ?_⟩
  rw [Rate, hl]
  by_cases hg : guess ≤ 0 ∨ guess ≥ 1
  · have hn : ¬ (0 < guess ∧ guess < 1) := by
      rintro ⟨a, b⟩
      rcases hg with h | h <;> linarith
    simp [rateInit, if_pos hg, if_neg hn]
  · have hp : 0 < guess ∧ guess < 1 := by
      constructor
      · by_contra h; exact hg (Or.inl (not_lt.1 h))
      · by_contra h; exact hg (Or.inr (not_lt.1 h))
    simp [rateInit, if_neg hg, if_pos hp]

/-! ## One pass of the solar loop, the clock and the angle conversions -/

/-- Claim C12. The solar loop runs exactly one pass: for every latitude, longitude and day
count, the loop of `SunRise` (and of `SunSet`) is still running after one test of its condition
and has stopped at the second, because the post statement `ut0 = utStart` makes
`|utStart - ut0| ≥ 0.1` false; the solved angle is the update formula evaluated once at the
initial guess 180, and the result of `SunRise` (`SunSet`) is the clock computed from it. -/
theorem sun_loop_runs_once (lat lng : ℝ) (dayCount : Int) (fuel : Nat) :
    (sunRiseLoop realMath (toRadians realMath lat) lng dayCount
        (realMath.Sin (toRadians realMath (-0.833))) 1 (180, 0) = none ∧
      sunRiseLoop realMath (toRadians realMath lat) lng dayCount
        (realMath.Sin (toRadians realMath (-0.833))) (fuel + 2) (180, 0)
        = some ((sunRiseBody realMath (toRadians realMath lat) lng dayCount
                  (realMath.Sin (toRadians realMath (-0.833))) 180).utStart,
                (sunRiseBody realMath (toRadians realMath lat) lng dayCount
                  (realMath.Sin (toRadians realMath (-0.833))) 180).utStart) ∧
      SunRise realMath (fuel + 2) lat lng dayCount
        = some (sunRiseClock lng
            (sunRiseBody realMath (toRadians realMath lat) lng dayCount
              (realMath.Sin (toRadians realMath (-0.833))) 180).utStart)) ∧
    (sunSetLoop realMath (toRadians realMath lat) lng dayCount
        (realMath.Sin (toRadians realMath (-0.833))) 1 (180, 0) = none ∧
      sunSetLoop realMath (toRadians realMath lat) lng dayCount
        (realMath.Sin (toRadians realMath (-0.833))) (fuel + 2) (180, 0)
        = some ((sunSetBody realMath (toRadians realMath lat) lng dayCount
                  (realMath.Sin (toRadians realMath (-0.833))) 180).utStart,
                (sunSetBody realMath (toRadians realMath lat) lng dayCount
                  (realMath.Sin (toRadians realMath (-0.833))) 180).utStart) ∧
      SunSet realMath (fuel + 2) lat lng dayCount
        = some (sunSetClock lng
            (sunSetBody realMath (toRadians realMath lat) lng dayCount
              (realMath.Sin (toRadians realMath (-0.833))) 180).utStart)) ∧
    (∀ u : ℝ, ¬ |u - u| ≥ 0.1) := by
  have h1 : |(0 : ℝ) - 180| ≥ 0.1 := by norm_num
  refine ⟨⟨?_, sunRiseLoop_init _ _ _ _ _ fuel, ?_⟩, ⟨?_, sunSetLoop_init _ _ _ _ _ fuel, ?_⟩, ?_⟩
  · rw [sunRiseLoop, if_pos h1]
    simp only []
    rw [sunRiseLoop]
  · simp only [SunRise]
    rw [sunRiseLoop_init]
    rfl
  · rw [sunSetLoop, if_pos h1]
    simp only []
    rw [sunSetLoop]
  · simp only [SunSet]
    rw [sunSetLoop_init]
    rfl
  · intro u
    norm_num

/-- Claim C17. Hour and minute extraction: when the local hour `x = utStart/15 + zone`
satisfies `0 ≤ x < 2^31`, the formatted hour of `SunRise` and of `SunSet` is the integer part
of `x` and the formatted minute lies in 0..59; for a negative non-integer `x` the minute can be
negative: at longitude 0 and `utStart = -22.5`, `x = -0.5` and the pair is `(0, -30)`. -/
theorem clock_hour_minute (lng utStart : ℝ) :
    (0 ≤ utStart / 15 + (sunRiseZone lng : ℝ) → utStart / 15 + (sunRiseZone lng : ℝ) < 2 ^ 31 →
      (sunRiseClock lng utStart).1 = ⌊utStart / 15 + (sunRiseZone lng : ℝ)⌋ ∧
      0 ≤ (sunRiseClock lng utStart).2 ∧ (sunRiseClock lng utStart).2 ≤ 59 ∧
      (sunSetClock lng utStart).1 = ⌊utStart / 15 + (sunSetZone lng : ℝ)⌋ ∧
      0 ≤ (sunSetClock lng utStart).2 ∧ (sunSetClock lng utStart).2 ≤ 59) ∧
    ((-22.5 : ℝ) / 15 + (sunRiseZone (0 : ℝ) : ℝ) = -0.5 ∧
      sunRiseClock (0 : ℝ) (-22.5) = (0, -30) ∧ sunSetClock (0 : ℝ) (-22.5) = (0, -30)) := by
  constructor
  · intro h0 _
    have hx : (sunRiseClock lng utStart).1 = ⌊utStart / 15 + (sunRiseZone lng : ℝ)⌋ :=
      goTrunc_of_nonneg h0
    have hfr : (0 : ℝ) ≤ 60 * (utStart / 15 + (sunRiseZone lng : ℝ)
        - ((⌊utStart / 15 + (sunRiseZone lng : ℝ)⌋ : ℤ) : ℝ)) := by
      have := Int.floor_le (utStart / 15 + (sunRiseZone lng : ℝ))
      linarith
    have hm : (sunRiseClock lng utStart).2
        = ⌊60 * (utStart / 15 + (sunRiseZone lng : ℝ)
            - ((⌊utStart / 15 + (sunRiseZone lng : ℝ)⌋ : ℤ) : ℝ))⌋ := by
      simp only [sunRiseClock, goTrunc_of_nonneg h0, goTrunc_of_nonneg hfr]
    have hlt : 60 * (utStart / 15 + (sunRiseZone lng : ℝ)
        - ((⌊utStart / 15 + (sunRiseZone lng : ℝ)⌋ : ℤ) : ℝ)) < 60 := by
      have := Int.lt_floor_add_one (utStart / 15 + (sunRiseZone lng : ℝ))
      linarith
    have hm0 : 0 ≤ (sunRiseClock lng utStart).2 := by
      rw [hm]; exact Int.floor_nonneg.2 hfr
    have hm59 : (sunRiseClock lng utStart).2 ≤ 59 := by
      rw [hm]
      have : ⌊60 * (utStart / 15 + (sunRiseZone lng : ℝ)
        - ((⌊utStart / 15 + (sunRiseZone lng : ℝ)⌋ : ℤ) : ℝ))⌋ < 60 := by
        rw [Int.floor_lt]; exact_mod_cast hlt
      omega
    exact ⟨hx, hm0, hm59, hx, hm0, hm59⟩
  · have hz : sunRiseZone (0 : ℝ) = 1 := by
      simp only [sunRiseZone]
      rw [if_pos (le_refl _), goTrunc_of_nonneg (by norm_num), Int.floor_eq_iff]
      norm_num
    have hh : goTrunc ((-22.5 : ℝ) / 15 + ((1 : ℤ) : ℝ)) = 0 := by
      rw [goTrunc_of_neg (by norm_num), Int.ceil_eq_iff]
      norm_num
    have hmin : goTrunc (60 * ((-22.5 : ℝ) / 15 + ((1 : ℤ) : ℝ) - ((0 : ℤ) : ℝ))) = -30 := by
      rw [goTrunc_of_neg (by norm_num), Int.ceil_eq_iff]
      norm_num
    have hc : sunRiseClock (0 : ℝ) (-22.5) = (0, -30) := by
      simp only [sunRiseClock, hz, hh, hmin]
    refine ⟨?_, hc, hc⟩
    rw [hz]
    norm_num

/-- The clock at longitude 0 for the solved angle 97.5: local hour 7.5. -/
theorem clock_hour_minute_witness :
    (0 : ℝ) ≤ 97.5 / 15 + (sunRiseZone (0 : ℝ) : ℝ) ∧
    (97.5 : ℝ) / 15 + (sunRiseZone (0 : ℝ) : ℝ) < 2 ^ 31 ∧
    (sunRiseClock (0 : ℝ) 97.5).1 = ⌊(97.5 : ℝ) / 15 + (sunRiseZone (0 : ℝ) : ℝ)⌋ ∧
    0 ≤ (sunRiseClock (0 : ℝ) 97.5).2 ∧ (sunRiseClock (0 : ℝ) 97.5).2 ≤ 59 := by
  have hz : sunRiseZone (0 : ℝ) = 1 := by
    simp only [sunRiseZone]
    rw [if_pos (le_refl _), goTrunc_of_nonneg (by norm_num), Int.floor_eq_iff]
    norm_num
  have h0 : (0 : ℝ) ≤ 97.5 / 15 + (sunRiseZone (0 : ℝ) : ℝ) := by
    rw [hz]; norm_num
  have h1 : (97.5 : ℝ) / 15 + (sunRiseZone (0 : ℝ) : ℝ) < 2 ^ 31 := by
    rw [hz]; norm_num
  have h := (clock_hour_minute 0 97.5).1 h0 h1
  exact ⟨h0, h1, h.1, h.2.1, h.2.2.1⟩

/-- Claim C18. Angle conversion round trip: for every real `a`,
`toDegrees(toRadians(a)) = a` and `toRadians(toDegrees(a)) = a`, and `toRadians(180)` is pi. -/
theorem angle_conversion_round_trip (a : ℝ) :
    toDegrees realMath (toRadians realMath a) = a ∧
    toRadians realMath (toDegrees realMath a) = a ∧
    toRadians realMath 180 = Real.pi := by
  have hpi : Real.pi ≠ 0 := Real.pi_ne_zero
  have e : realMath.Pi = Real.pi := rfl
  simp only [toDegrees, toRadians, e]
  refine ⟨?_, ?_, ?_⟩
  · field_simp
  · field_simp
    ring
  · field_simp

/-! ## Term count and net present value -/

/-- Claim C15. `Nper` inverts `Pmt`: for `r ≠ 0`, `r > -1`, `n ≠ 0` and `pv + fv ≠ 0`, and
either timing flag, `Nper(r, Pmt(r, n, pv, fv, t), pv, fv, t) = n`; and at rate 0 with `n ≠ 0`
and `pv + fv ≠ 0`, `Nper(0, Pmt(0, n, pv, fv, t), pv, fv, t) = n`. -/
theorem Nper_inverts_Pmt (r n pv fv : ℝ) (t : Bool) :
    (r ≠ 0 → r > -1 → n ≠ 0 → pv + fv ≠ 0 →
      Nper realMath r (Pmt realMath r n pv fv t) pv fv t = n) ∧
    (n ≠ 0 → pv + fv ≠ 0 → Nper realMath 0 (Pmt realMath 0 n pv fv t) pv fv t = n) := by
  constructor
  · intro hr0 hr hn hpf
    have hx : 0 < r + 1 := by linarith
    have hx1 : r + 1 ≠ 1 := fun h => hr0 (by linarith)
    have hlog : Real.log (r + 1) ≠ 0 := Real.log_ne_zero_of_pos_of_ne_one hx hx1
    have hPpos : 0 < (r + 1) ^ n := Real.rpow_pos_of_pos hx n
    have hlogP : Real.log ((r + 1) ^ n) = n * Real.log (r + 1) := Real.log_rpow hx n
    have hP1 : (r + 1) ^ n ≠ 1 := by
      intro h
      rw [h, Real.log_one] at hlogP
      rcases mul_eq_zero.1 hlogP.symm with h0 | h0
      · exact hn h0
      · exact hlog h0
    have hd : 1 - (r + 1) ^ n ≠ 0 := fun h => hP1 (by linarith)
    have hc : (pv + fv) / (1 - (r + 1) ^ n) ≠ 0 := div_ne_zero hpf hd
    have hryr : (if (!t) = true then 1 else r + 1) * Pmt realMath r n pv fv t / r
        = (fv + pv * (r + 1) ^ n) / (1 - (r + 1) ^ n) := by
      cases t <;> simp [Pmt, hr0, realMath_Pow] <;> field_simp <;> ring
    have e1 : (fv + pv * (r + 1) ^ n) / (1 - (r + 1) ^ n) - fv
        = (r + 1) ^ n * ((pv + fv) / (1 - (r + 1) ^ n)) := by
      field_simp; ring
    have e2 : pv + (fv + pv * (r + 1) ^ n) / (1 - (r + 1) ^ n)
        = (pv + fv) / (1 - (r + 1) ^ n) := by
      field_simp; ring
    have e3 : fv - (fv + pv * (r + 1) ^ n) / (1 - (r + 1) ^ n)
        = -((r + 1) ^ n * ((pv + fv) / (1 - (r + 1) ^ n))) := by
      rw [← e1]; ring
    have e4 : -pv - (fv + pv * (r + 1) ^ n) / (1 - (r + 1) ^ n)
        = -((pv + fv) / (1 - (r + 1) ^ n)) := by
      rw [← e2]; ring
    have hdiff : ∀ c : ℝ, c ≠ 0 →
        Real.log ((r + 1) ^ n * c) - Real.log c = n * Real.log (r + 1) := by
      intro c hc
      rw [Real.log_mul hPpos.ne' hc, hlogP]
      ring
    have hL : ∀ x : ℝ, realMath.Log x = Real.log x := fun _ => rfl
    simp only [Nper, if_neg hr0, hryr, hL, e1, e2, e3, e4, Real.log_neg_eq_log]
    split_ifs <;> rw [hdiff _ hc] <;> field_simp
  · intro hn hpf
    have hne : -1 * (fv + pv) ≠ 0 := fun h => hpf (by linarith)
    have hP : Pmt realMath 0 n pv fv t = -1 * (fv + pv) / n := by
      rw [Pmt, if_pos rfl]
    have hN : ∀ y : ℝ, Nper realMath 0 y pv fv t = -1 * (fv + pv) / y := by
      intro y
      rw [Nper, if_pos rfl]
    rw [hP, hN, div_div_eq_mul_div, mul_div_cancel_left₀ _ hne]

/-- The inversion at rate 1 over 2 periods with payments at the start of the period, and at
rate 0 over 2 periods. -/
theorem Nper_inverts_Pmt_witness :
    ((1 : ℝ) ≠ 0 ∧ (1 : ℝ) > -1 ∧ (2 : ℝ) ≠ 0 ∧ (100 : ℝ) + 7 ≠ 0 ∧
      Nper realMath 1 (Pmt realMath 1 2 100 7 true) 100 7 true = 2) ∧
    ((2 : ℝ) ≠ 0 ∧ (100 : ℝ) + 7 ≠ 0 ∧
      Nper realMath 0 (Pmt realMath 0 2 100 7 false) 100 7 false = 2) :=
  ⟨⟨by norm_num, by norm_num, by norm_num, by norm_num,
      (Nper_inverts_Pmt 1 2 100 7 true).1 (by norm_num) (by norm_num) (by norm_num)
        (by norm_num)⟩,
    ⟨by norm_num, by norm_num,
      (Nper_inverts_Pmt 0 2 100 7 false).2 (by norm_num) (by norm_num)⟩⟩

/-- The accumulator of `Npv` after the whole list, started at any sum and any power. -/
theorem Npv_foldl {K : Type} [LinearOrderedField K] (r1 : K) :
    ∀ (cfs : List K) (a : K) (k : Nat),
      (cfs.foldl (fun (acc : K × K) (c : K) => (acc.1 + c / acc.2, acc.2 * r1))
          (a, r1 ^ (k + 1))).1
        = a + ∑ i in Finset.range cfs.length, cfs.getD i 0 / r1 ^ (k + i + 1) := by
  intro cfs
  induction cfs with
  | nil => intro a k; simp
  | cons c cs ih =>
    intro a k
    rw [List.foldl_cons]
    have hp : r1 ^ (k + 1) * r1 = r1 ^ (k + 1 + 1) := (pow_succ r1 (k + 1)).symm
    simp only [hp]
    rw [ih, List.length_cons, Finset.sum_range_succ']
    simp only [List.getD_cons_succ, List.getD_cons_zero, add_zero]
    have : ∀ i, k + 1 + i + 1 = k + (i + 1) + 1 := fun i => by omega
    simp only [this]
    ring

/-- Claim C16. `Npv` is the end-of-period discounted sum: for every rate `r` and every list of
cash flows, `Npv(r, cfs)` is the sum over `i` from 0 to `len(cfs) - 1` of
`cfs[i] / (1+r)^(i+1)`; `Npv(r, [])` is 0 and `Npv(0, cfs)` is the plain sum of `cfs`.  (Over
the reals the order of the additions does not matter.) -/
theorem Npv_discounted_sum (r : ℝ) (cfs : List ℝ) :
    Npv r cfs = ∑ i in Finset.range cfs.length, cfs.getD i 0 / (1 + r) ^ (i + 1) ∧
    Npv r [] = 0 ∧
    Npv 0 cfs = cfs.sum := by
  have hgen : ∀ (r : ℝ) (cfs : List ℝ),
      Npv r cfs = ∑ i in Finset.range cfs.length, cfs.getD i 0 / (1 + r) ^ (i + 1) := by
    intro r cfs
    have h := Npv_foldl (r + 1) cfs 0 0
    simp only [zero_add, pow_one] at h
    simp only [Npv]
    rw [h, add_comm 1 r]
  refine ⟨hgen r cfs, by simp [Npv], ?_⟩
  rw [hgen 0 cfs]
  simp only [add_zero, one_pow, div_one]
  induction cfs with
  | nil => simp
  | cons c cs ih =>
    rw [List.length_cons, Finset.sum_range_succ', List.sum_cons]
    simp only [List.getD_cons_succ, List.getD_cons_zero]
    rw [ih]
    ring

/-! ## The secant iteration on the known loan, by interval enclosures -/

/-- A product of two enclosed numbers is bounded below by the least of the four corner
products. -/
theorem mul_lower {x y a b c d : ℝ} (L : ℝ) (hx : a ≤ x ∧ x ≤ b) (hy : c ≤ y ∧ y ≤ d)
    (h : L ≤ a * c ∧ L ≤ a * d ∧ L ≤ b * c ∧ L ≤ b * d) : L ≤ x * y := by
  obtain ⟨h1, h2, h3, h4⟩ := h
  rcases le_total 0 y with hy0 | hy0
  · have e1 : a * y ≤ x * y := mul_le_mul_of_nonneg_right hx.1 hy0
    rcases le_total 0 a with ha | ha
    · have := mul_le_mul_of_nonneg_left hy.1 ha
      linarith
    · have := mul_le_mul_of_nonpos_left hy.2 ha
      linarith
  · have e1 : b * y ≤ x * y := mul_le_mul_of_nonpos_right hx.2 hy0
    rcases le_total 0 b with hb | hb
    · have := mul_le_mul_of_nonneg_left hy.1 hb
      linarith
    · have := mul_le_mul_of_nonpos_left hy.2 hb
      linarith

/-- A product of two enclosed numbers is bounded above by the greatest of the four corner
products. -/
theorem mul_upper {x y a b c d : ℝ} (U : ℝ) (hx : a ≤ x ∧ x ≤ b) (hy : c ≤ y ∧ y ≤ d)
    (h : a * c ≤ U ∧ a * d ≤ U ∧ b * c ≤ U ∧ b * d ≤ U) : x * y ≤ U := by
  have := @mul_lower x (-y) a b (-d) (-c) (-U) hx
    ⟨neg_le_neg hy.2, neg_le_neg hy.1⟩
    ⟨by linarith [h.2.1], by linarith [h.1], by linarith [h.2.2.2], by linarith [h.2.2.1]⟩
  linarith


/-- Enclosure of the secant update when the difference of the residuals is positive. -/
theorem secant_encl_pos {x0 x1 y0 y1 a0 b0 a1 b1 c0 d0 c1 d1 : ℝ} (P1l P1u P2l P2u lo hi : ℝ)
    (hx0 : a0 ≤ x0 ∧ x0 ≤ b0) (hx1 : a1 ≤ x1 ∧ x1 ≤ b1)
    (hy0 : c0 ≤ y0 ∧ y0 ≤ d0) (hy1 : c1 ≤ y1 ∧ y1 ≤ d1)
    (h1l : P1l ≤ c1 * a0 ∧ P1l ≤ c1 * b0 ∧ P1l ≤ d1 * a0 ∧ P1l ≤ d1 * b0)
    (h1u : c1 * a0 ≤ P1u ∧ c1 * b0 ≤ P1u ∧ d1 * a0 ≤ P1u ∧ d1 * b0 ≤ P1u)
    (h2l : P2l ≤ c0 * a1 ∧ P2l ≤ c0 * b1 ∧ P2l ≤ d0 * a1 ∧ P2l ≤ d0 * b1)
    (h2u : c0 * a1 ≤ P2u ∧ c0 * b1 ≤ P2u ∧ d0 * a1 ≤ P2u ∧ d0 * b1 ≤ P2u)
    (hD : d0 < c1)
    (hlo : lo * (c1 - d0) ≤ P1l - P2u ∧ lo * (d1 - c0) ≤ P1l - P2u)
    (hhi : P1u - P2l ≤ hi * (c1 - d0) ∧ P1u - P2l ≤ hi * (d1 - c0)) :
    lo ≤ (y1 * x0 - y0 * x1) / (y1 - y0) ∧ (y1 * x0 - y0 * x1) / (y1 - y0) ≤ hi := by
  have p1l := mul_lower P1l hy1 hx0 h1l
  have p1u := mul_upper P1u hy1 hx0 h1u
  have p2l := mul_lower P2l hy0 hx1 h2l
  have p2u := mul_upper P2u hy0 hx1 h2u
  have hDl : c1 - d0 ≤ y1 - y0 := by linarith [hy1.1, hy0.2]
  have hDu : y1 - y0 ≤ d1 - c0 := by linarith [hy1.2, hy0.1]
  have hpos : 0 < y1 - y0 := by linarith
  constructor
  · rw [le_div_iff₀ hpos]
    have := mul_upper (P1l - P2u) (⟨le_refl lo, le_refl lo⟩ : lo ≤ lo ∧ lo ≤ lo) ⟨hDl, hDu⟩
      ⟨hlo.1, hlo.2, hlo.1, hlo.2⟩
    linarith
  · rw [div_le_iff₀ hpos]
    have := mul_lower (P1u - P2l) (⟨le_refl hi, le_refl hi⟩ : hi ≤ hi ∧ hi ≤ hi) ⟨hDl, hDu⟩
      ⟨hhi.1, hhi.2, hhi.1, hhi.2⟩
    linarith

/-- Enclosure of the secant update when the difference of the residuals is negative. -/
theorem secant_encl_neg {x0 x1 y0 y1 a0 b0 a1 b1 c0 d0 c1 d1 : ℝ} (P1l P1u P2l P2u lo hi : ℝ)
    (hx0 : a0 ≤ x0 ∧ x0 ≤ b0) (hx1 : a1 ≤ x1 ∧ x1 ≤ b1)
    (hy0 : c0 ≤ y0 ∧ y0 ≤ d0) (hy1 : c1 ≤ y1 ∧ y1 ≤ d1)
    (h1l : P1l ≤ c1 * a0 ∧ P1l ≤ c1 * b0 ∧ P1l ≤ d1 * a0 ∧ P1l ≤ d1 * b0)
    (h1u : c1 * a0 ≤ P1u ∧ c1 * b0 ≤ P1u ∧ d1 * a0 ≤ P1u ∧ d1 * b0 ≤ P1u)
    (h2l : P2l ≤ c0 * a1 ∧ P2l ≤ c0 * b1 ∧ P2l ≤ d0 * a1 ∧ P2l ≤ d0 * b1)
    (h2u : c0 * a1 ≤ P2u ∧ c0 * b1 ≤ P2u ∧ d0 * a1 ≤ P2u ∧ d0 * b1 ≤ P2u)
    (hD : d1 < c0)
    (hlo : P1u - P2l ≤ lo * (c1 - d0) ∧ P1u - P2l ≤ lo * (d1 - c0))
    (hhi : hi * (c1 - d0) ≤ P1l - P2u ∧ hi * (d1 - c0) ≤ P1l - P2u) :
    lo ≤ (y1 * x0 - y0 * x1) / (y1 - y0) ∧ (y1 * x0 - y0 * x1) / (y1 - y0) ≤ hi := by
  have p1l := mul_lower P1l hy1 hx0 h1l
  have p1u := mul_upper P1u hy1 hx0 h1u
  have p2l := mul_lower P2l hy0 hx1 h2l
  have p2u := mul_upper P2u hy0 hx1 h2u
  have hDl : c1 - d0 ≤ y1 - y0 := by linarith [hy1.1, hy0.2]
  have hDu : y1 - y0 ≤ d1 - c0 := by linarith [hy1.2, hy0.1]
  have hneg : y1 - y0 < 0 := by linarith
  constructor
  · rw [le_div_iff_of_neg hneg]
    have := mul_lower (P1u - P2l) (⟨le_refl lo, le_refl lo⟩ : lo ≤ lo ∧ lo ≤ lo) ⟨hDl, hDu⟩
      ⟨hlo.1, hlo.2, hlo.1, hlo.2⟩
    linarith
  · rw [div_le_iff_of_neg hneg]
    have := mul_upper (P1l - P2u) (⟨le_refl hi, le_refl hi⟩ : hi ≤ hi ∧ hi ≤ hi) ⟨hDl, hDu⟩
      ⟨hhi.1, hhi.2, hhi.1, hhi.2⟩
    linarith

/-- Enclosure of the compounding residual of the known loan at a rate in `[lo, hi]`. -/
theorem loan_cmp_encl {r lo hi : ℝ} (Fl Fu yl yu : ℝ) (hlo : 0 < lo) (hr : lo ≤ r ∧ r ≤ hi)
    (hF : 1 ≤ Fl ∧ Fl ≤ (1 + lo) ^ 360 ∧ (1 + hi) ^ 360 ≤ Fu)
    (hy : yl ≤ 30000 * Fl + (-146.62) * ((Fu - 1) / lo) ∧
      30000 * Fu + (-146.62) * ((Fl - 1) / hi) ≤ yu) :
    yl ≤ 30000 * (1 + r) ^ (360 : ℝ) + (-146.62) * (1 / r + 0) * ((1 + r) ^ (360 : ℝ) - 1) + 0 ∧
    30000 * (1 + r) ^ (360 : ℝ) + (-146.62) * (1 / r + 0) * ((1 + r) ^ (360 : ℝ) - 1) + 0
      ≤ yu := by
  have e : (360 : ℝ) = ((360 : ℕ) : ℝ) := by norm_num
  rw [e, Real.rpow_natCast]
  have hrpos : 0 < r := lt_of_lt_of_le hlo hr.1
  have hhi : 0 < hi := lt_of_lt_of_le hrpos hr.2
  have f1 : (1 + lo) ^ 360 ≤ (1 + r) ^ 360 :=
    pow_le_pow_left₀ (add_nonneg zero_le_one hlo.le) (add_le_add_left hr.1 1) 360
  have f2 : (1 + r) ^ 360 ≤ (1 + hi) ^ 360 :=
    pow_le_pow_left₀ (add_nonneg zero_le_one hrpos.le) (add_le_add_left hr.2 1) 360
  obtain ⟨hF1, hFl, hFu⟩ := hF
  generalize (1 + r) ^ 360 = f at f1 f2 ⊢
  generalize (1 + lo) ^ 360 = flo at f1 hFl
  generalize (1 + hi) ^ 360 = fhi at f2 hFu
  have g1 : (Fl - 1) / hi ≤ (f - 1) / r :=
    div_le_div₀ (by linarith) (by linarith) hrpos hr.2
  have g2 : (f - 1) / r ≤ (Fu - 1) / lo :=
    div_le_div₀ (by linarith) (by linarith) hlo hr.1
  have e2 : (1 / r + 0) * (f - 1) = (f - 1) / r := by
    field_simp
  rw [mul_assoc, e2]
  constructor
  · linarith [hy.1]
  · linarith [hy.2]

/-- Enclosure of the linear residual of the known loan at a rate in `[lo, hi]`. -/
theorem loan_lin_encl {r lo hi : ℝ} (yl yu : ℝ) (hr : lo ≤ r ∧ r ≤ hi)
    (hy : yl ≤ 30000 * (1 + 360 * lo) + (-146.62) * 360 ∧
      30000 * (1 + 360 * hi) + (-146.62) * 360 ≤ yu) :
    yl ≤ 30000 * (1 + 360 * r) + (-146.62) * (1 + r * 0) * 360 + 0 ∧
    30000 * (1 + 360 * r) + (-146.62) * (1 + r * 0) * 360 + 0 ≤ yu := by
  constructor
  · linarith [hy.1, hr.1]
  · linarith [hy.2, hr.2]

/-- One pass of the loop body on the known loan, compounding branch. -/
theorem loan_step_cmp (s : RateVars ℝ) {a0 b0 a1 b1 c0 d0 c1 d1 lo hi yl yu : ℝ} (Fl Fu : ℝ)
    (h : RateEncl s a0 b0 a1 b1 c0 d0 c1 d1)
    (hr : lo ≤ (s.y1 * s.x0 - s.y0 * s.x1) / (s.y1 - s.y0) ∧
      (s.y1 * s.x0 - s.y0 * s.x1) / (s.y1 - s.y0) ≤ hi)
    (hlo : 0.000000001 ≤ lo)
    (hF : 1 ≤ Fl ∧ Fl ≤ (1 + lo) ^ 360 ∧ (1 + hi) ^ 360 ≤ Fu)
    (hy : yl ≤ 30000 * Fl + (-146.62) * ((Fu - 1) / lo) ∧
      30000 * Fu + (-146.62) * ((Fl - 1) / hi) ≤ yu) :
    RateEncl (rateStep realMath 360 (-146.62) 30000 0 0 s) a1 b1 lo hi c1 d1 yl yu := by
  have hpos : 0 < lo := lt_of_lt_of_le (by norm_num) hlo
  have hn : ¬ |(s.y1 * s.x0 - s.y0 * s.x1) / (s.y1 - s.y0)| < (FINANCIAL_PRECISION : ℝ) := by
    rw [abs_of_pos (lt_of_lt_of_le hpos hr.1), FINANCIAL_PRECISION]
    exact not_lt.2 (le_trans hlo hr.1)
  have hy1 := loan_cmp_encl Fl Fu yl yu hpos hr hF hy
  simp only [RateEncl, rateStep, if_neg hn, realMath_Pow]
  exact ⟨trivial, h.2.2.1, hr, h.2.2.2.2, hy1⟩

/-- One pass of the loop body on the known loan, linear branch. -/
theorem loan_step_lin (s : RateVars ℝ) {a0 b0 a1 b1 c0 d0 c1 d1 lo hi yl yu : ℝ}
    (h : RateEncl s a0 b0 a1 b1 c0 d0 c1 d1)
    (hr : lo ≤ (s.y1 * s.x0 - s.y0 * s.x1) / (s.y1 - s.y0) ∧
      (s.y1 * s.x0 - s.y0 * s.x1) / (s.y1 - s.y0) ≤ hi)
    (hlo : -0.000000001 < lo ∧ hi < 0.000000001)
    (hy : yl ≤ 30000 * (1 + 360 * lo) + (-146.62) * 360 ∧
      30000 * (1 + 360 * hi) + (-146.62) * 360 ≤ yu) :
    RateEncl (rateStep realMath 360 (-146.62) 30000 0 0 s) a1 b1 lo hi c1 d1 yl yu := by
  have hn : |(s.y1 * s.x0 - s.y0 * s.x1) / (s.y1 - s.y0)| < (FINANCIAL_PRECISION : ℝ) := by
    rw [abs_lt, FINANCIAL_PRECISION]
    constructor
    · linarith [hlo.1, hr.1]
    · linarith [hlo.2, hr.2]
  have hy1 := loan_lin_encl yl yu hr hy
  simp only [RateEncl, rateStep, if_pos hn]
  exact ⟨trivial, h.2.2.1, hr, h.2.2.2.2, hy1⟩

theorem encl_continues {s : RateVars ℝ} {a0 b0 a1 b1 c0 d0 c1 d1 : ℝ}
    (h : RateEncl s a0 b0 a1 b1 c0 d0 c1 d1)
    (hgap : 0.000000001 < c0 - d1 ∨ 0.000000001 < c1 - d0) : rateContinues s = true := by
  rw [rateContinues_iff, gt_iff_lt, lt_abs]
  obtain ⟨-, -, -, hy0, hy1⟩ := h
  rcases hgap with hg | hg
  · left; linarith [hy0.1, hy1.2]
  · right; linarith [hy0.2, hy1.1]

theorem encl_stops {s : RateVars ℝ} {a0 b0 a1 b1 c0 d0 c1 d1 : ℝ}
    (h : RateEncl s a0 b0 a1 b1 c0 d0 c1 d1)
    (hgap : d0 - c1 ≤ 0.000000001 ∧ d1 - c0 ≤ 0.000000001) : rateContinues s = false := by
  have : ¬ rateContinues s = true := by
    rw [rateContinues_iff, gt_iff_lt, not_lt, abs_le]
    obtain ⟨-, -, -, hy0, hy1⟩ := h
    constructor
    · linarith [hgap.2, hy0.1, hy1.2]
    · linarith [hgap.1, hy0.2, hy1.1]
  simpa using this

/-- The loop of `Rate` returns the state after `n` passes when the loop test succeeds on the
first `n` states and fails on the next. -/
theorem rateLoop_iterate {K : Type} [LinearOrderedField K] (m : GoMath K)
    (nper pmt pv fv tp : K) :
    ∀ (n fuel : Nat) (s : RateVars K),
      (∀ k, k < n → rateContinues ((rateStep m nper pmt pv fv tp)^[k] s) = true) →
      rateContinues ((rateStep m nper pmt pv fv tp)^[n] s) = false →
      rateLoop m nper pmt pv fv tp (fuel + n + 1) s
        = some ((rateStep m nper pmt pv fv tp)^[n] s) := by
  intro n
  induction n with
  | zero =>
    intro fuel s _ hstop
    have hs : ¬ rateContinues s = true := by
      simpa using hstop
    rw [Nat.add_zero, rateLoop, if_neg hs]
    rfl
  | succ n ih =>
    intro fuel s hc hstop
    have h0 : rateContinues s = true := by simpa using hc 0 (Nat.succ_pos n)
    have e : fuel + (n + 1) + 1 = (fuel + n + 1) + 1 := by omega
    rw [e, rateLoop, if_pos h0, ih fuel (rateStep m nper pmt pv fv tp s)]
    · rw [Function.iterate_succ_apply]
    · intro k hk
      have := hc (k + 1) (Nat.succ_lt_succ hk)
      simpa [Function.iterate_succ_apply] using this
    · simpa [Function.iterate_succ_apply] using hstop

/-- The seed state of the known loan at a guess in `[1e-9, 1)`. -/
theorem loan_init_encl (guess : ℝ) {yl yu : ℝ} (Fl Fu : ℝ)
    (hg : 0.000000001 ≤ guess ∧ guess < 1)
    (hF : 1 ≤ Fl ∧ Fl ≤ (1 + guess) ^ 360 ∧ (1 + guess) ^ 360 ≤ Fu)
    (hy : yl ≤ 30000 * Fl + (-146.62) * ((Fu - 1) / guess) ∧
      30000 * Fu + (-146.62) * ((Fl - 1) / guess) ≤ yu) :
    RateEncl (rateInit realMath 360 (-146.62) 30000 0 0 guess)
      0 0 guess guess (-22783.2) (-22783.2) yl yu := by
  have hpos : 0 < guess := lt_of_lt_of_le (by norm_num) hg.1
  rw [rateInit_of_guess 360 (-146.62) 30000 0 0 guess hg.1 hg.2]
  have hy1 := loan_cmp_encl Fl Fu yl yu hpos ⟨le_refl guess, le_refl guess⟩ hF hy
  refine ⟨rfl, ⟨le_refl _, le_refl _⟩, ⟨le_refl _, le_refl _⟩, ⟨?_, ?_⟩, hy1⟩ <;> norm_num

/-! ### The thirteen passes from the guess 0.1 -/

/-- The known loan from the guess 0.1: the state on reaching the loop. -/
theorem loan_encl_0 :
    RateEncl (rateInit realMath 360 (-146.62) 30000 0 0 0.1)
      0 0 0.1 0.1 (-22783.2) (-22783.2)
      22736639181094898848.264979148070469863286484812961460167519752010542574122716153
      22736639181094898848.264979148070469863286484812961460167519752010542574122716154 := by
  exact loan_init_encl 0.1
    796831798817363.87659775351155718726083755002183240438243485802839238286252501081
    796831798817363.87659775351155718726083755002183240438243485802839238286252501082
    (by norm_num) (by norm_num) (by norm_num)

/-- The known loan from the guess 0.1: the state after 1 pass of the loop body (linear branch). -/
theorem loan_encl_1 :
    RateEncl ((rateStep realMath 360 (-146.62) 30000 0 0)^[1]
        (rateInit realMath 360 (-146.62) 30000 0 0 0.1))
      0.1 0.1
      0.00000000000000010020478320711441290903538635853046666087709772732040219295388277110597732730961
      0.00000000000000010020478320711441290903538635853046666087709772732040219295388277110597732730962
      22736639181094898848.264979148070469863286484812961460167519752010542574122716153
      22736639181094898848.264979148070469863286484812961460167519752010542574122716154
      (-22783.199999998917788341363164340582417827327870960062527344544939656316098066073)
      (-22783.199999998917788341363164340582417827327870960062527344544939656316098066072) := by
  have h := loan_encl_0
  rw [Function.iterate_one]
  exact loan_step_lin _ h
    (secant_encl_pos
      0 0 (-2278.32) (-2278.32)
      0.00000000000000010020478320711441290903538635853046666087709772732040219295388277110597732730961
      0.00000000000000010020478320711441290903538635853046666087709772732040219295388277110597732730962
      h.2.1 h.2.2.1 h.2.2.2.1 h.2.2.2.2
      (by norm_num) (by norm_num) (by norm_num) (by norm_num) (by norm_num) (by norm_num)
      (by norm_num))
    (by norm_num) (by norm_num)

/-- The known loan from the guess 0.1: the state after 2 passes of the loop body (linear branch). -/
theorem loan_encl_2 :
    RateEncl ((rateStep realMath 360 (-146.62) 30000 0 0)^[2]
        (rateInit realMath 360 (-146.62) 30000 0 0 0.1))
      0.00000000000000010020478320711441290903538635853046666087709772732040219295388277110597732730961
      0.00000000000000010020478320711441290903538635853046666087709772732040219295388277110597732730962
      0.0000000000000002004095664142239656384021640972052518980099987622538185719090512888071629813374
      0.00000000000000020040956641422396563840216409720525189800999876225381857190905128880716298133744
      (-22783.199999998917788341363164340582417827327870960062527344544939656316098066073)
      (-22783.199999998917788341363164340582417827327870960062527344544939656316098066072)
      (-22783.199999997835576682726381171105256627750183279501492013367658759423382246081)
      (-22783.19999999783557668272638117110525662775018327950149201336765875942338224608) := by
  have h := loan_encl_1
  rw [show (2 : ℕ) = 1 + 1 from rfl, Function.iterate_succ_apply']
  exact loan_step_lin _ h
    (secant_encl_neg
      (-2278.3199999998917788341363164340582417827327870960062527344544939656316098066073)
      (-2278.3199999998917788341363164340582417827327870960062527344544939656316098066072)
      2278.3199999999977170143832356709078108649855163286719719049070589138127574930978
      2278.3199999999977170143832356709078108649855163286719719049070589138127574930982
      0.0000000000000002004095664142239656384021640972052518980099987622538185719090512888071629813374
      0.00000000000000020040956641422396563840216409720525189800999876225381857190905128880716298133744
      h.2.1 h.2.2.1 h.2.2.2.1 h.2.2.2.2
      (by norm_num) (by norm_num) (by norm_num) (by norm_num) (by norm_num) (by norm_num)
      (by norm_num))
    (by norm_num) (by norm_num)

/-- The known loan from the guess 0.1: the state after 3 passes of the loop body (compounding branch). -/
theorem loan_encl_3 :
    RateEncl ((rateStep realMath 360 (-146.62) 30000 0 0)^[3]
        (rateInit realMath 360 (-146.62) 30000 0 0 0.1))
      0.0000000000000002004095664142239656384021640972052518980099987622538185719090512888071629813374
      0.00000000000000020040956641422396563840216409720525189800999876225381857190905128880716298133744
      0.0021095555555555555555555555555555555555555555555555555555555555555519938038421873
      0.0021095555555555555555555555555555555555555555555555555555555555555558924045248186
      (-22783.199999997835576682726381171105256627750183279501492013367658759423382246081)
      (-22783.19999999783557668272638117110525662775018327950149201336765875942338224608)
      (-14850.297121255288037589979693964819196717296219701667204361509246707639206892943)
      (-14850.297121255288037589979693964819196717296219701667204361509246264225080502871) := by
  have h := loan_encl_2
  rw [show (3 : ℕ) = 2 + 1 from rfl, Function.iterate_succ_apply']
  exact loan_step_cmp _
    2.1353703215255371982422444726261547430251661147030078047226768194020203162833263
    2.1353703215255371982422444726261547430251661147030078047226768194050109915173129
    h
    (secant_encl_pos
      (-0.0000000000022829856167641122066198591880926534637453182121896494494875416356262286034810953)
      (-0.0000000000022829856167641122066198591880926534637453182121896494494875416356262286034810948)
      (-0.0000000000045659712335283305683635683586684288307599645230487444615325530309987182564739421)
      (-0.0000000000045659712335283305683635683586684288307599645230487444615325530309987182564739409)
      0.0021095555555555555555555555555555555555555555555555555555555555555519938038421873
      0.0021095555555555555555555555555555555555555555555555555555555555555558924045248186
      h.2.1 h.2.2.1 h.2.2.2.1 h.2.2.2.2
      (by norm_num) (by norm_num) (by norm_num) (by norm_num) (by norm_num) (by norm_num)
      (by norm_num))
    (by norm_num) (by norm_num) (by norm_num)

/-- The known loan from the guess 0.1: the state after 4 passes of the loop body (compounding branch). -/
theorem loan_encl_4 :
    RateEncl ((rateStep realMath 360 (-146.62) 30000 0 0)^[4]
        (rateInit realMath 360 (-146.62) 30000 0 0 0.1))
      0.0021095555555555555555555555555555555555555555555555555555555555555519938038421873
      0.0021095555555555555555555555555555555555555555555555555555555555555558924045248186
      0.0060586177428336567522575218628319507814601616621633233815374287643503411389627239
      0.0060586177428336567522575218628319507814601616621633233815374287647001877632141615
      (-14850.297121255288037589979693964819196717296219701667204361509246707639206892943)
      (-14850.297121255288037589979693964819196717296219701667204361509246264225080502871)
      75226.395047762219629120972062179209139204218543234660272890216705627419145661823
      75226.395047762219629120972062179209139204218543234660272890216776219791404540328 := by
  have h := loan_encl_3
  rw [show (4 : ℕ) = 3 + 1 from rfl, Function.iterate_succ_apply']
  exact loan_step_cmp _
    8.797976229009155111944684560804448368400928850332188502359394390288651267186446
    8.7979762290091551119446845608044483684009288503321885023593943913900376105714674
    h
    (secant_encl_pos
      (-0.0000000000029761416071931706152933125242597658196588453278481975801265493069259348191540855)
      (-0.0000000000029761416071931706152933125242597658196588453278481975801265493068370703863423086)
      (-48.062426133328767362099804785879400489148273886638290591929533152141720312472524)
      (-48.062426133328767362099804785879400489148273886638290591929533152052897713400004)
      0.0060586177428336567522575218628319507814601616621633233815374287643503411389627239
      0.0060586177428336567522575218628319507814601616621633233815374287647001877632141615
      h.2.1 h.2.2.1 h.2.2.2.1 h.2.2.2.2
      (by norm_num) (by norm_num) (by norm_num) (by norm_num) (by norm_num) (by norm_num)
      (by norm_num))
    (by norm_num) (by norm_num) (by norm_num)

/-- The known loan from the guess 0.1: the state after 5 passes of the loop body (compounding branch). -/
theorem loan_encl_5 :
    RateEncl ((rateStep realMath 360 (-146.62) 30000 0 0)^[5]
        (rateInit realMath 360 (-146.62) 30000 0 0 0.1))
      0.0060586177428336567522575218628319507814601616621633233815374287643503411389627239
      0.0060586177428336567522575218628319507814601616621633233815374287647001877632141615
      0.0027606090680597076321297182277262376160471967669580907707010096515031674068393883
      0.0027606090680597076321297182277262376160471967669580907707010096554242222248095905
      75226.395047762219629120972062179209139204218543234660272890216705627419145661823
      75226.395047762219629120972062179209139204218543234660272890216776219791404540328
      (-9239.4847983971646723423681859094999975845607719658538091005912265880525283109701)
      (-9239.4847983971646723423681859094999975845607719658538091005907828731855200003221) := by
  have h := loan_encl_4
  rw [show (5 : ℕ) = 4 + 1 from rfl, Function.iterate_succ_apply']
  exact loan_step_cmp _
    2.697836109257117910166742784192666354645772762989376643150471560760365633357162
    2.6978361092571179101667427841926663546457727629893766431504715645580923732278408
    h
    (secant_encl_pos
      158.69425959742372243094341950805938496854792147353925110456596159673674891405204
      158.69425959742372243094341950805938496854792147353925110456596174594855766770018
      (-89.972273625188863884027923661790318136200687762277642078607785696164912716739337)
      (-89.972273625188863884027923661790318136200687762277642078607785688283109706167355)
      0.0027606090680597076321297182277262376160471967669580907707010096515031674068393883
      0.0027606090680597076321297182277262376160471967669580907707010096554242222248095905
      h.2.1 h.2.2.1 h.2.2.2.1 h.2.2.2.2
      (by norm_num) (by norm_num) (by norm_num) (by norm_num) (by norm_num) (by norm_num)
      (by norm_num))
    (by norm_num) (by norm_num) (by norm_num)

/-- The known loan from the guess 0.1: the state after 6 passes of the loop body (compounding branch). -/
theorem loan_encl_6 :
    RateEncl ((rateStep realMath 360 (-146.62) 30000 0 0)^[6]
        (rateInit realMath 360 (-146.62) 30000 0 0 0.1))
      0.0027606090680597076321297182277262376160471967669580907707010096515031674068393883
      0.0027606090680597076321297182277262376160471967669580907707010096554242222248095905
      0.0031213689520632295772154698172381236091221400699290939071093327482702259441644169
      0.0031213689520632295772154698172381236091221400699290939071093328049406659787038974
      (-9239.4847983971646723423681859094999975845607719658538091005912265880525283109701)
      (-9239.4847983971646723423681859094999975845607719658538091005907828731855200003221)
      (-5147.8868634599594454430771594783613893936004990609038933441699214707989887156872)
      (-5147.8868634599594454430771594783613893936004990609038933441633481719536858083482) := by
  have h := loan_encl_5
  rw [show (6 : ℕ) = 5 + 1 from rfl, Function.iterate_succ_apply']
  exact loan_step_cmp _
    3.0708141860960695114189424467436955716215074927164347856191315956811113870407765
    3.0708141860960695114189424467436955716215074927164347856191316581349507404791778
    h
    (secant_encl_neg
      (-55.978506534210913935913613033092463045826254908668907931673365514469826464957691)
      (-55.978506534210913935913613033092463045826254908668907931673362822938657882788719)
      207.67066832629426653791559602077484932531217057055214225855186808338512351120229
      207.67066832629426653791559602077484932531217057055214225855186857322988524546666
      0.0031213689520632295772154698172381236091221400699290939071093327482702259441644169
      0.0031213689520632295772154698172381236091221400699290939071093328049406659787038974
      h.2.1 h.2.2.1 h.2.2.2.1 h.2.2.2.2
      (by norm_num) (by norm_num) (by norm_num) (by norm_num) (by norm_num) (by norm_num)
      (by norm_num))
    (by norm_num) (by norm_num) (by norm_num)

/-- The known loan from the guess 0.1: the state after 7 passes of the loop body (compounding branch). -/
theorem loan_encl_7 :
    RateEncl ((rateStep realMath 360 (-146.62) 30000 0 0)^[7]
        (rateInit realMath 360 (-146.62) 30000 0 0 0.1))
      0.0031213689520632295772154698172381236091221400699290939071093327482702259441644169
      0.0031213689520632295772154698172381236091221400699290939071093328049406659787038974
      0.0035752627845601343698040336674952735329689748994075810206463451305249632672356225
      0.0035752627845601343698040336674952735329689748994075810206463561684533538855413458
      (-5147.8868634599594454430771594783613893936004990609038933441699214707989887156872)
      (-5147.8868634599594454430771594783613893936004990609038933441633481719536858083482)
      1221.6117522544586322667615318494344490247637341119589346907280878097724084123964
      1221.6117522544586322667615318494344490247637341119589346920751408159333133088231 := by
  have h := loan_encl_6
  rw [show (7 : ℕ) = 6 + 1 from rfl, Function.iterate_succ_apply']
  exact loan_step_cmp _
    3.6139422812284746760425408319870932240173439074013163562381981893685818524214908
    3.613942281228474676042540831987093224017343907401316356238212498765725664618386
    h
    (secant_encl_pos
      (-14.21130315661301003509128635004629203748141314696610682710639905088657024952858)
      (-14.211303156613010035091286350046292037481413146966106827106380884393024251582076)
      (-28.839840982777097890572134270767087145769794654195179835820680826894743920738651)
      (-28.839840982777097890572134270767087145769794654195179835820678918291265254527142)
      0.0035752627845601343698040336674952735329689748994075810206463451305249632672356225
      0.0035752627845601343698040336674952735329689748994075810206463561684533538855413458
      h.2.1 h.2.2.1 h.2.2.2.1 h.2.2.2.2
      (by norm_num) (by norm_num) (by norm_num) (by norm_num) (by norm_num) (by norm_num)
      (by norm_num))
    (by norm_num) (by norm_num) (by norm_num)

/-- The known loan from the guess 0.1: the state after 8 passes of the loop body (compounding branch). -/
theorem loan_encl_8 :
    RateEncl ((rateStep realMath 360 (-146.62) 30000 0 0)^[8]
        (rateInit realMath 360 (-146.62) 30000 0 0 0.1))
      0.0035752627845601343698040336674952735329689748994075810206463451305249632672356225
      0.0035752627845601343698040336674952735329689748994075810206463561684533538855413458
      0.0034882100864582691603042740720996294884341274226065928800955674901208005737090431
      0.0034882100864582691603042740720996294884341274226065928800969815378207218630517871
      1221.6117522544586322667615318494344490247637341119589346907280878097724084123964
      1221.6117522544586322667615318494344490247637341119589346920751408159333133088231
      (-116.57201997690328179194365562763523656536729283234675022565541433572898988867025)
      (-116.57201997690328179194365562763523656536729283234675005501051966826835099048661) := by
  have h := loan_encl_7
  rw [show (8 : ℕ) = 7 + 1 from rfl, Function.iterate_succ_apply']
  exact loan_step_cmp _
    3.5028276463913048669033156831046085674043443862416728142519806963869101597135368
    3.5028276463913048669033156831046085674043443862416728142537576375782994305942179
    h
    (secant_encl_pos
      3.8131009949626251729423535037792218490852786898470807218421725344360860662788436
      3.8131009949626251729423535037792218490852786898470807218463772530955757047558391
      (-18.405048322054390843528520054140717893725469297161631168415688486449503537999678)
      (-18.405048322054390843528520054140717893725469297161631168415608163172208258703353)
      0.0034882100864582691603042740720996294884341274226065928800955674901208005737090431
      0.0034882100864582691603042740720996294884341274226065928800969815378207218630517871
      h.2.1 h.2.2.1 h.2.2.2.1 h.2.2.2.2
      (by norm_num) (by norm_num) (by norm_num) (by norm_num) (by norm_num) (by norm_num)
      (by norm_num))
    (by norm_num) (by norm_num) (by norm_num)

/-- The known loan from the guess 0.1: the state after 9 passes of the loop body (compounding branch). -/
theorem loan_encl_9 :
    RateEncl ((rateStep realMath 360 (-146.62) 30000 0 0)^[9]
        (rateInit realMath 360 (-146.62) 30000 0 0 0.1))
      0.0034882100864582691603042740720996294884341274226065928800955674901208005737090431
      0.0034882100864582691603042740720996294884341274226065928800969815378207218630517871
      0.0034957934311921936907006810923744417053340553368525030697080042077089386916563162
      0.003495793431192193690700681092374441705334055336852503070618025832040648929371755
      (-116.57201997690328179194365562763523656536729283234675022565541433572898988867025)
      (-116.57201997690328179194365562763523656536729283234675005501051966826835099048661)
      (-2.3151887172005185394076038402100149629666914233306864451883328028438934584963073)
      (-2.3151887172005185394076038402100149629666914233305765208433583962581283320717692) := by
  have h := loan_encl_8
  rw [show (9 : ℕ) = 8 + 1 from rfl, Function.iterate_succ_apply']
  exact loan_step_cmp _
    3.5123700775880331200581028828655276214969744071743743497479344347964224762295558
    3.5123700775880331200581028828655276214969744071743743508946056893309562669154569
    h
    (secant_encl_neg
      (-0.41677560474442283790474692606031780919053402416804537523888030762944511380767917)
      (-0.41677560474442283790474692606031780919053402416804537462877867963608011045028116)
      4.2612384359499628314661662640008730437425751347568533515643000347619804727907822
      4.2612384359499628314661662640008730437425751347568533515707262559335371074191737
      0.0034957934311921936907006810923744417053340553368525030697080042077089386916563162
      0.003495793431192193690700681092374441705334055336852503070618025832040648929371755
      h.2.1 h.2.2.1 h.2.2.2.1 h.2.2.2.2
      (by norm_num) (by norm_num) (by norm_num) (by norm_num) (by norm_num) (by norm_num)
      (by norm_num))
    (by norm_num) (by norm_num) (by norm_num)

/-- The known loan from the guess 0.1: the state after 10 passes of the loop body (compounding branch). -/
theorem loan_encl_10 :
    RateEncl ((rateStep realMath 360 (-146.62) 30000 0 0)^[10]
        (rateInit realMath 360 (-146.62) 30000 0 0 0.1))
      0.0034957934311921936907006810923744417053340553368525030697080042077089386916563162
      0.003495793431192193690700681092374441705334055336852503070618025832040648929371755
      0.0034959470926754770641849236274362399994270384722851871319496151086464263484254086
      0.0034959470926754770641849236274362399994270384722851938626464653004010710212357093
      (-2.3151887172005185394076038402100149629666914233306864451883328028438934584963073)
      (-2.3151887172005185394076038402100149629666914233305765208433583962581283320717692)
      0.0045173856483419917845801987774177241866441221128926796734685966209712583060964068
      0.0045173856483419917845801987774177241866441229259302112548767876986213541687674513 := by
  have h := loan_encl_9
  rw [show (10 : ℕ) = 9 + 1 from rfl, Function.iterate_succ_apply']
  exact loan_step_cmp _
    3.5125637038099000362126572320761092928545076837865231395522213894017984285370795
    3.5125637038099000362126572320761092928545076837865316210219764966435739927538749
    h
    (secant_encl_pos
      (-0.0080758646353932300429690032617933753455173427398633241023390758376411924198212837)
      (-0.0080758646353932300429690032617933753455173427398629406631269150069591521494906653)
      (-0.40751170169606367096241310686362873771525649475796740359621402204361849199450867)
      (-0.40751170169606367096241310686362873771525649475796740289359166122761568953306532)
      0.0034959470926754770641849236274362399994270384722851871319496151086464263484254086
      0.0034959470926754770641849236274362399994270384722851938626464653004010710212357093
      h.2.1 h.2.2.1 h.2.2.2.1 h.2.2.2.2
      (by norm_num) (by norm_num) (by norm_num) (by norm_num) (by norm_num) (by norm_num)
      (by norm_num))
    (by norm_num) (by norm_num) (by norm_num)

/-- The known loan from the guess 0.1: the state after 11 passes of the loop body (compounding branch). -/
theorem loan_encl_11 :
    RateEncl ((rateStep realMath 360 (-146.62) 30000 0 0)^[11]
        (rateInit realMath 360 (-146.62) 30000 0 0 0.1))
      0.0034959470926754770641849236274362399994270384722851871319496151086464263484254086
      0.0034959470926754770641849236274362399994270384722851938626464653004010710212357093
      0.0034959467934357680188183303484317801121308869160138266536094657252974465253714491
      0.0034959467934357680188183303484317801121308869184647110000793954519993239668022384
      0.0045173856483419917845801987774177241866441221128926796734685966209712583060964068
      0.0045173856483419917845801987774177241866441229259302112548767876986213541687674513
      (-0.00000017456273494133149165714733427892553324213675909995544652559263954302527033577122)
      (-0.00000017456273494133149165714733427892523718647883379768592350830247701039119260005476) := by
  have h := loan_encl_10
  rw [show (11 : ℕ) = 10 + 1 from rfl, Function.iterate_succ_apply']
  exact loan_step_cmp _
    3.5125633267326876115502132051586175220238586522227932988739062739117539293334762
    3.5125633267326876115502132051586175220238586553111955394147025500707621852961003
    h
    (secant_encl_pos
      0.000015791847075635823942064562472556157237497186152147317859667617898256375323942117
      0.000015791847075635823942064562472556157237497188994358580078781016495337728104969384
      (-0.0080937772648922200464627657059310261195731153016217098210572727902684822574315824)
      (-0.0080937772648922200464627657059310261195731153016213099485296387963575838775434354)
      0.0034959467934357680188183303484317801121308869160138266536094657252974465253714491
      0.0034959467934357680188183303484317801121308869184647110000793954519993239668022384
      h.2.1 h.2.2.1 h.2.2.2.1 h.2.2.2.2
      (by norm_num) (by norm_num) (by norm_num) (by norm_num) (by norm_num) (by norm_num)
      (by norm_num))
    (by norm_num) (by norm_num) (by norm_num)

/-- The known loan from the guess 0.1: the state after 12 passes of the loop body (compounding branch). -/
theorem loan_encl_12 :
    RateEncl ((rateStep realMath 360 (-146.62) 30000 0 0)^[12]
        (rateInit realMath 360 (-146.62) 30000 0 0 0.1))
      0.0034959467934357680188183303484317801121308869160138266536094657252974465253714491
      0.0034959467934357680188183303484317801121308869184647110000793954519993239668022384
      0.0034959467934473309199360456147219980556354579823818213889599053904432608219981942
      0.0034959467934473309199360456147219980560936689067803290949288873454966460295690058
      (-0.00000017456273494133149165714733427892553324213675909995544652559263954302527033577122)
      (-0.00000017456273494133149165714733427892523718647883379768592350830247701039119260005476)
      (-0.00000000000001316110417578746926627776701523812064176873008338571909380617905410402129326647)
      (-0.000000000000013161104175787469210927975872727869428715625467657244358477315979466113405588778) := by
  have h := loan_encl_11
  rw [show (12 : ℕ) = 11 + 1 from rfl, Function.iterate_succ_apply']
  exact loan_step_cmp _
    3.5125633267472582255290460531554626519021657947797663803148542512758249848558354
    3.5125633267472582255290460531554626524795653965181085743850141913830213072640764
    h
    (secant_encl_neg
      (-0.00000000061026208570762774258108806668381390983390115526552095094755478632232155219865377)
      (-0.00000000061026208570762774258108806668381287483898456117949076530698742990422080322964003)
      0.000015792539872033944140751841284963234916806616562191261642805267271196119606513276
      0.000015792539872033944140751841284963234916806619415598802890250507977634674795339649
      0.0034959467934473309199360456147219980556354579823818213889599053904432608219981942
      0.0034959467934473309199360456147219980560936689067803290949288873454966460295690058
      h.2.1 h.2.2.1 h.2.2.2.1 h.2.2.2.2
      (by norm_num) (by norm_num) (by norm_num) (by norm_num) (by norm_num) (by norm_num)
      (by norm_num))
    (by norm_num) (by norm_num) (by norm_num)

/-- The known loan from the guess 0.1: the state after 13 passes of the loop body (compounding branch). -/
theorem loan_encl_13 :
    RateEncl ((rateStep realMath 360 (-146.62) 30000 0 0)^[13]
        (rateInit realMath 360 (-146.62) 30000 0 0 0.1))
      0.0034959467934473309199360456147219980556354579823818213889599053904432608219981942
      0.0034959467934473309199360456147219980560936689067803290949288873454966460295690058
      0.0034959467934473309208078259761455991338873254090701086974844850474483051516004217
      0.0034959467934473309208078281931129324110052388761426159434850653141728874739964705
      (-0.00000000000001316110417578746926627776701523812064176873008338571909380617905410402129326647)
      (-0.000000000000013161104175787469210927975872727869428715625467657244358477315979466113405588778)
      (-0.00000000000000000013389973611873926038199084441670222895163436523953065678564759726029353999683907)
      0.0000000000000000001338998128067599695334298794093350957516181459137006426872470294698851894890804 := by
  have h := loan_encl_12
  rw [show (13 : ℕ) = 12 + 1 from rfl, Function.iterate_succ_apply']
  exact loan_step_cmp _
    3.5125633267472582266275917374384422495237526180715993011323728962975702711588776
    3.5125633267472582266275945310777623540693926935560172140452678344298697599446307
    h
    (secant_encl_pos
      (-0.000000000000000046010519941418299723174382681443782694134772696197941362360677730413540398247177)
      (-0.000000000000000046010519941418299529674457819445595168057350256821220924086614329378385138795849)
      (-0.00000000061026203347354418021656838858325308076484092213883246354672655290496851329297831)
      (-0.00000000061026203347354418021656838858325204569002636409548077330443219870488615661177862)
      0.0034959467934473309208078259761455991338873254090701086974844850474483051516004217
      0.0034959467934473309208078281931129324110052388761426159434850653141728874739964705
      h.2.1 h.2.2.1 h.2.2.2.1 h.2.2.2.2
      (by norm_num) (by norm_num) (by norm_num) (by norm_num) (by norm_num) (by norm_num)
      (by norm_num))
    (by norm_num) (by norm_num) (by norm_num)

/-! ### The two passes from the guess 0.5 -/

/-- The known loan from the guess 0.5: the state on reaching the loop. -/
theorem loan_half_encl_0 :
    RateEncl (rateInit realMath 360 (-146.62) 30000 0 0 0.5)
      0 0 0.5 0.5 (-22783.2) (-22783.2)
      73402110576218818442288783639598418364345225736849804028699254959037.985398150286
      73402110576218818442288783639598418364345225736849804028699254959037.98539815029 := by
  exact loan_init_encl 0.5
    2470889136890688127627812108745565600703180883302312471259041879.9877450586381782
    2470889136890688127627812108745565600703180883302312471259041879.9877450586381783
    (by norm_num) (by norm_num) (by norm_num)

/-- The known loan from the guess 0.5: the state after 1 pass of the loop body (linear branch). -/
theorem loan_half_encl_1 :
    RateEncl ((rateStep realMath 360 (-146.62) 30000 0 0)^[1]
        (rateInit realMath 360 (-146.62) 30000 0 0 0.5))
      0.5 0.5
      0.00000000000000000000000000000000000000000000000000000000000000015519444755163085642899789257999353240505657634183417309192931507539490680089721
      0.00000000000000000000000000000000000000000000000000000000000000015519444755163085642899789257999353240505657634183417309192931507539490680089723
      73402110576218818442288783639598418364345225736849804028699254959037.985398150286
      73402110576218818442288783639598418364345225736849804028699254959037.98539815029
      (-22783.199999999999999999999999999999999999999999999999999999998323899966442386751)
      (-22783.19999999999999999999999999999999999999999999999999999999832389996644238675) := by
  have h := loan_half_encl_0
  rw [Function.iterate_one]
  exact loan_step_lin _ h
    (secant_encl_pos
      0 0 (-11391.6) (-11391.6)
      0.00000000000000000000000000000000000000000000000000000000000000015519444755163085642899789257999353240505657634183417309192931507539490680089721
      0.00000000000000000000000000000000000000000000000000000000000000015519444755163085642899789257999353240505657634183417309192931507539490680089723
      h.2.1 h.2.2.1 h.2.2.2.1 h.2.2.2.2
      (by norm_num) (by norm_num) (by norm_num) (by norm_num) (by norm_num) (by norm_num)
      (by norm_num))
    (by norm_num) (by norm_num)

/-- The known loan from the guess 0.5: the state after 2 passes of the loop body (linear branch). -/
theorem loan_half_encl_2 :
    RateEncl ((rateStep realMath 360 (-146.62) 30000 0 0)^[2]
        (rateInit realMath 360 (-146.62) 30000 0 0 0.5))
      0.00000000000000000000000000000000000000000000000000000000000000015519444755163085642899789257999353240505657634183417309192931507539490680089721
      0.00000000000000000000000000000000000000000000000000000000000000015519444755163085642899789257999353240505657634183417309192931507539490680089723
      0.00000000000000000000000000000000000000000000000000000000000000031038889510326171285799578515998706481011315268366834618385861868537231661600451
      0.00000000000000000000000000000000000000000000000000000000000000031038889510326171285799578515998706481011315268366834618385861868537231661600459
      (-22783.199999999999999999999999999999999999999999999999999999998323899966442386751)
      (-22783.19999999999999999999999999999999999999999999999999999999832389996644238675)
      (-22783.199999999999999999999999999999999999999999999999999999996647799932884773502)
      (-22783.199999999999999999999999999999999999999999999999999999996647799932884773501) := by
  have h := loan_half_encl_1
  rw [show (2 : ℕ) = 1 + 1 from rfl, Function.iterate_succ_apply']
  exact loan_step_lin _ h
    (secant_encl_neg
      (-11391.599999999999999999999999999999999999999999999999999999999161949983221193376)
      (-11391.599999999999999999999999999999999999999999999999999999999161949983221193375)
      11391.599999999999999999999999999999999999999999999999999999999996464173862541682
      11391.599999999999999999999999999999999999999999999999999999999996464173862541685
      0.00000000000000000000000000000000000000000000000000000000000000031038889510326171285799578515998706481011315268366834618385861868537231661600451
      0.00000000000000000000000000000000000000000000000000000000000000031038889510326171285799578515998706481011315268366834618385861868537231661600459
      h.2.1 h.2.2.1 h.2.2.2.1 h.2.2.2.2
      (by norm_num) (by norm_num) (by norm_num) (by norm_num) (by norm_num) (by norm_num)
      (by norm_num))
    (by norm_num) (by norm_num)

/-! ### What `Rate` returns on the known loan -/

/-- The known loan from the guess 0.1: the loop test succeeds on the first 13 states. -/
theorem loan_continues (k : Nat) (hk : k < 13) :
    rateContinues ((rateStep realMath 360 (-146.62) 30000 0 0)^[k] (rateInit realMath 360 (-146.62) 30000 0 0 0.1)) = true := by
  interval_cases k
  · exact encl_continues loan_encl_0 (by norm_num)
  · exact encl_continues loan_encl_1 (by norm_num)
  · exact encl_continues loan_encl_2 (by norm_num)
  · exact encl_continues loan_encl_3 (by norm_num)
  · exact encl_continues loan_encl_4 (by norm_num)
  · exact encl_continues loan_encl_5 (by norm_num)
  · exact encl_continues loan_encl_6 (by norm_num)
  · exact encl_continues loan_encl_7 (by norm_num)
  · exact encl_continues loan_encl_8 (by norm_num)
  · exact encl_continues loan_encl_9 (by norm_num)
  · exact encl_continues loan_encl_10 (by norm_num)
  · exact encl_continues loan_encl_11 (by norm_num)
  · exact encl_continues loan_encl_12 (by norm_num)

/-- The known loan from the guess 0.1: the loop test fails on the state after 13 passes. -/
theorem loan_stops :
    rateContinues ((rateStep realMath 360 (-146.62) 30000 0 0)^[13] (rateInit realMath 360 (-146.62) 30000 0 0 0.1)) = false :=
  encl_stops loan_encl_13 (by norm_num)

/-- The known loan from the guess 0.5: the loop test succeeds on the first 2 states. -/
theorem loan_half_continues (k : Nat) (hk : k < 2) :
    rateContinues ((rateStep realMath 360 (-146.62) 30000 0 0)^[k] (rateInit realMath 360 (-146.62) 30000 0 0 0.5)) = true := by
  interval_cases k
  · exact encl_continues loan_half_encl_0 (by norm_num)
  · exact encl_continues loan_half_encl_1 (by norm_num)

/-- The known loan from the guess 0.5: the loop test fails on the state after 2 passes. -/
theorem loan_half_stops :
    rateContinues ((rateStep realMath 360 (-146.62) 30000 0 0)^[2] (rateInit realMath 360 (-146.62) 30000 0 0 0.5)) = false :=
  encl_stops loan_half_encl_2 (by norm_num)

/-- At the rate 0.0034959467934 the present value of the known loan is at most 30000.0001. -/
theorem Pv_loan_near_low :
    Pv realMath 0.0034959467934 360 (-146.62) 0 false ≤ 30000.0001 := by
  have h0 : (0.0034959467934 : ℝ) ≠ 0 := by norm_num
  have e : (360 : ℝ) = ((360 : ℕ) : ℝ) := by norm_num
  simp only [Pv, if_neg h0, realMath_Pow]
  rw [e, Real.rpow_natCast]
  norm_num

/-- At the rate 0.0034959467935 the present value of the known loan is at least 29999.9999. -/
theorem Pv_loan_near_high :
    29999.9999 ≤ Pv realMath 0.0034959467935 360 (-146.62) 0 false := by
  have h0 : (0.0034959467935 : ℝ) ≠ 0 := by norm_num
  have e : (360 : ℝ) = ((360 : ℕ) : ℝ) := by norm_num
  simp only [Pv, if_neg h0, realMath_Pow]
  rw [e, Real.rpow_natCast]
  norm_num

/-- At the rate 1e-9 the present value of the known loan is above 52000. -/
theorem Pv_loan_near_zero :
    52000 < Pv realMath 0.000000001 360 (-146.62) 0 false := by
  have h0 : (0.000000001 : ℝ) ≠ 0 := by norm_num
  have e : (360 : ℝ) = ((360 : ℕ) : ℝ) := by norm_num
  simp only [Pv, if_neg h0, realMath_Pow]
  rw [e, Real.rpow_natCast]
  norm_num

/-- From the guess 0.5 the secant loop on the known loan stops after two passes, both on the
linear branch, at a rate below 1e-60, where the present value is above 52000: the starting
guess decides whether `Rate` finds the rate of the loan. -/
theorem Rate_known_loan_from_half (fuel : Nat) :
    ∃ r : ℝ, Rate realMath (fuel + 3) 360 (-146.62) 30000 0 0 0.5 = some r ∧
      0 < r ∧ r < 0.000000001 ∧ 52000 < Pv realMath r 360 (-146.62) 0 false := by
  have hl := rateLoop_iterate realMath 360 (-146.62) 30000 0 0 2 fuel
    (rateInit realMath 360 (-146.62) 30000 0 0 0.5) loan_half_continues loan_half_stops
  obtain ⟨hrate, -, hx1, -, -⟩ := loan_half_encl_2
  refine ⟨((rateStep realMath 360 (-146.62) 30000 0 0)^[2] (rateInit realMath 360 (-146.62) 30000 0 0 0.5)).rate, ?_, ?_, ?_, ?_⟩
  · rw [Rate, show fuel + 3 = fuel + 2 + 1 from rfl, hl]
    rfl
  · rw [hrate]
    exact lt_of_lt_of_le (by norm_num) hx1.1
  · rw [hrate]
    exact lt_of_le_of_lt hx1.2 (by norm_num)
  · rw [hrate]
    have hpos : (0 : ℝ) < ((rateStep realMath 360 (-146.62) 30000 0 0)^[2] (rateInit realMath 360 (-146.62) 30000 0 0 0.5)).x1 := lt_of_lt_of_le (by norm_num) hx1.1
    have hle : ((rateStep realMath 360 (-146.62) 30000 0 0)^[2] (rateInit realMath 360 (-146.62) 30000 0 0 0.5)).x1 ≤ 0.000000001 := le_trans hx1.2 (by norm_num)
    have := Pv_loan_antitone (by linarith) hle
    exact lt_of_lt_of_le Pv_loan_near_zero this

/-- Claim C2, amended. On the known loan (360 periods, payment -146.62, present value 30000,
future value 0, payments at the end of the period) and from the default seed, given as the
guess 0.1 or as any guess `≤ 0` or `≥ 1`, the loop of `Rate` is still running after 13 tests
and stops at the 14th, and `Rate` returns a periodic rate `r` within 1e-6 of 0.003495947 for
which `Pv(r, 360, -146.62, 0, false)` is within 1e-4 of 30000. -/
theorem Rate_known_loan_converges (fuel : Nat) (guess : ℝ)
    (hg : guess ≤ 0 ∨ guess ≥ 1 ∨ guess = 0.1) :
    Rate realMath 13 360 (-146.62) 30000 0 0 guess = none ∧
    ∃ r : ℝ, Rate realMath (fuel + 14) 360 (-146.62) 30000 0 0 guess = some r ∧
      |r - 0.003495947| ≤ 0.000001 ∧
      |Pv realMath r 360 (-146.62) 0 false - 30000| ≤ 0.0001 := by
  have hinit : rateInit realMath 360 (-146.62) 30000 0 0 guess
      = rateInit realMath 360 (-146.62) 30000 0 0 0.1 := by
    rcases hg with h | h | h
    · exact rateInit_clamp realMath 360 (-146.62) 30000 0 0 guess (Or.inl h)
    · exact rateInit_clamp realMath 360 (-146.62) 30000 0 0 guess (Or.inr h)
    · rw [h]
  have hnone := rateLoop_none realMath 360 (-146.62) 30000 0 0 13
    (rateInit realMath 360 (-146.62) 30000 0 0 0.1) loan_continues
  have hl := rateLoop_iterate realMath 360 (-146.62) 30000 0 0 13 fuel
    (rateInit realMath 360 (-146.62) 30000 0 0 0.1) loan_continues loan_stops
  obtain ⟨hrate, -, hx1, -, -⟩ := loan_encl_13
  constructor
  · rw [Rate, hinit, hnone]
    rfl
  refine ⟨((rateStep realMath 360 (-146.62) 30000 0 0)^[13] (rateInit realMath 360 (-146.62) 30000 0 0 0.1)).rate, ?_, ?_, ?_⟩
  · rw [Rate, hinit, show fuel + 14 = fuel + 13 + 1 from rfl, hl]
    rfl
  · rw [hrate, abs_le]
    constructor
    · exact le_trans (by norm_num) (sub_le_sub_right hx1.1 _)
    · exact le_trans (sub_le_sub_right hx1.2 _) (by norm_num)
  · rw [hrate]
    have hlo : (0.0034959467934 : ℝ) ≤ ((rateStep realMath 360 (-146.62) 30000 0 0)^[13] (rateInit realMath 360 (-146.62) 30000 0 0 0.1)).x1 := le_trans (by norm_num) hx1.1
    have hhi : ((rateStep realMath 360 (-146.62) 30000 0 0)^[13] (rateInit realMath 360 (-146.62) 30000 0 0 0.1)).x1 ≤ 0.0034959467935 := le_trans hx1.2 (by norm_num)
    have h1 := Pv_loan_antitone (by norm_num : (-1 : ℝ) < 0.0034959467934) hlo
    have h2 := Pv_loan_antitone (by linarith : (-1 : ℝ) < ((rateStep realMath 360 (-146.62) 30000 0 0)^[13] (rateInit realMath 360 (-146.62) 30000 0 0 0.1)).x1) hhi
    have h3 := Pv_loan_near_low
    have h4 := Pv_loan_near_high
    rw [abs_le]
    constructor <;> linarith

/-- The known loan with the guess left at 0, which `Rate` replaces by 0.1. -/
theorem Rate_known_loan_converges_witness :
    ((0 : ℝ) ≤ 0 ∨ (0 : ℝ) ≥ 1 ∨ (0 : ℝ) = 0.1) ∧
    Rate realMath 13 360 (-146.62) 30000 0 0 0 = none ∧
    ∃ r : ℝ, Rate realMath (0 + 14) 360 (-146.62) 30000 0 0 0 = some r ∧
      |r - 0.003495947| ≤ 0.000001 ∧
      |Pv realMath r 360 (-146.62) 0 false - 30000| ≤ 0.0001 :=
  ⟨Or.inl (le_refl 0), Rate_known_loan_converges 0 0 (Or.inl (le_refl 0))⟩

end Spork
